import Mathlib

/-!
Verification development for the Pitch-Deck-Scanner client (`src/app.py`).

The Python source is shallowly embedded below.  Network and JSON-library
effects are modelled as explicit oracle arguments (an HTTP response is a
status code together with a decoded body; `json.loads` is a
`String → Option Json` argument), session state is passed explicitly, and
every Python exception path is reflected as an explicit error value.
Python machine-level details that the program never relies on (exact float
printing, `repr` of containers) are modelled by exact-rational rounding and
by a fixed rendering, with comments at the definition site.
-/

namespace PitchScan

/-! ## Character/string utilities (Python `str` operations used by app.py) -/

/-- Python `str.strip()` whitespace test (ASCII whitespace suffices here). -/
def isSpaceChar (c : Char) : Bool :=
  c = ' ' || c = '\t' || c = '\n' || c = '\r' || c = '\x0b' || c = '\x0c'

/-- Trim whitespace on both ends of a character list (Python `str.strip()`). -/
def trimList (l : List Char) : List Char :=
  ((l.dropWhile isSpaceChar).reverse.dropWhile isSpaceChar).reverse

/-- Python `str.strip()`. -/
def strTrim (s : String) : String := String.mk (trimList s.data)

/-- Does the pattern `p` match at the head of `l`? -/
def leadsWith : List Char → List Char → Bool
  | [], _ => true
  | _ :: _, [] => false
  | a :: as, b :: bs => a = b && leadsWith as bs

/-- Python `str.startswith(p)`. -/
def strStarts (s p : String) : Bool := leadsWith p.data s.data

/-- Python slicing `s[n:]`. -/
def strDropn (s : String) (n : Nat) : String := String.mk (s.data.drop n)

/-- Concatenate a list of strings (Python `"".join`). -/
def strJoin : List String → String
  | [] => ""
  | s :: rest => s ++ strJoin rest

/-- Number of positions of `l` at which the pattern `p` occurs. -/
def countOccur : List Char → List Char → Nat
  | [], _ => 0
  | c :: rest, p => (if leadsWith p (c :: rest) then 1 else 0) + countOccur rest p

/-- Last element of a list, if any. -/
def lastElem : List Char → Option Char
  | [] => none
  | c :: rest => match rest with
    | [] => some c
    | _ :: _ => lastElem rest

/-! ## JSON values and Python dict/truthiness semantics -/

/-- JSON values as delivered by `json.loads` / `resp.json()`.  Numbers are
modelled as integers; no claim depends on float payloads. -/
inductive Json where
  | null : Json
  | bool : Bool → Json
  | num : Int → Json
  | str : String → Json
  | arr : List Json → Json
  | obj : List (String × Json) → Json

/-- Python truthiness of a JSON value (`None`, `False`, `0`, `""`, `[]`,
`\x7b\x7d` are falsy). -/
def jtruthy : Json → Bool
  | .null => false
  | .bool b => b
  | .num n => n != 0
  | .str s => s ≠ ""
  | .arr l => !l.isEmpty
  | .obj l => !l.isEmpty

/-- `d.get(k)` on a dict: `some v` when the key is present, `none` when
missing.  Call sites guard the non-dict case explicitly, as the Python
`.get` on a non-dict raises `AttributeError`. -/
def jget : Json → String → Option Json
  | .obj fields, k => (fields.find? (fun p => p.1 == k)).map (·.2)
  | _, _ => none

/-- `d.get(k, dflt)`: present value, else the default. -/
def jgetD (j : Json) (k : String) (dflt : Json) : Json :=
  match jget j k with
  | some v => v
  | none => dflt

/-- `d.get(k)` as a value (`None` when missing), for Python `or` chains. -/
def jgetN (j : Json) (k : String) : Json := jgetD j k Json.null

/-- Python `a or b` where `a` came from a `.get` (missing key = `None`). -/
def pyOr (a : Option Json) (b : Json) : Json :=
  match a with
  | some v => if jtruthy v then v else b
  | none => b

/-- Python `str(v)` for the values the app passes to `str`/f-strings.
Containers are abstracted to fixed markers: the app only ever stringifies
scalar payload fields, and no claim evaluates `str` on a container. -/
def pyStr : Json → String
  | .null => "None"
  | .bool b => if b then "True" else "False"
  | .num n => toString n
  | .str s => s
  | .arr _ => "[...]"
  | .obj _ => "\x7b...\x7d"

/-- Python `a or b` on strings, `None`/`""` falsy (mime-type defaulting). -/
def pyOrS (a : Option String) (b : String) : String :=
  match a with
  | some s => if s = "" then b else s
  | none => b

/-! ## `format_with_openai` (app.py lines 357-577)

The OpenAI HTTP exchange is an oracle argument: `none` models the
`requests.post` call raising, `some (status, body)` a completed response.
All exceptions inside the `try` block (including `AttributeError` /
`IndexError` while navigating the response body) are swallowed by the
source's bare `except`, so every failed navigation collapses to the
fallback `text`. -/

/-- `((j.get("choices") or [\x7b\x7d])[0].get("message") or \x7b\x7d).get("content")`,
with every Python exception on the way (non-list `choices`, non-dict
element, non-string `content`) folded into `none`, which is what the
surrounding `try/except` does with them. -/
def openaiContent (j : Json) : Option String :=
  match pyOr (jget j "choices") (Json.arr [Json.obj []]) with
  | .arr (first :: _) =>
    match pyOr (jget first "message") (Json.obj []) with
    | msg =>
      match jget msg "content" with
      | some (.str c) => some c
      | _ => none
  | _ => none

/-- `format_with_openai` (app.py 357-577): if no `OPENAI_API_KEY`, return the
text; otherwise, on a successful (status < 400) response whose first
choice's message content is a non-blank string, return that content
stripped; in every other case (request exception, HTTP error, missing or
blank content) return the original text. -/
def format_with_openai (openaiKey : String) (resp : Option (Nat × Json)) (text : String) : String :=
  if openaiKey = "" then text
  else
    match resp with
    | none => text
    | some (status, j) =>
      if status < 400 then
        match openaiContent j with
        | some c => if strTrim c ≠ "" then strTrim c else text
        | none => text
      else text

/-! ## Result rendering (app.py line 725) -/

/-- Literal `<div class='result-box'>` (apostrophes written `\x27`). -/
def resultBoxOpen : String := "<div class=\x27result-box\x27>"

/-- Literal `</div>`. -/
def resultBoxClose : String := "</div>"

/-- `st.markdown(f"<div class='result-box'>\x7bfinal_output\x7d</div>")`:
the displayed report is the normalizer output wrapped verbatim in the
fixed result container. -/
def renderResult (finalOutput : String) : String :=
  resultBoxOpen ++ finalOutput ++ resultBoxClose

/-- The nine fixed report sections named by the reformatting system prompt
(app.py lines 399-437), in its required order. -/
def nineSections : List String :=
  ["Strengths", "Red Flags (High Priority Concerns)", "Improvement Tips",
   "Add", "Remove / Merge", "Change", "Consistency Check",
   "The Action Plan", "Data Points (Can Include)"]

/-! ## `_infer_file_type` (app.py lines 220-229) -/

/-- `_infer_file_type`: map a MIME type to Dify's attachment kind.  A
missing MIME type (`None` in Python) is modelled by `""`, both being falsy
to the source's `if not mime`. -/
def _infer_file_type (mime : String) : String :=
  if mime = "" then "document"
  else if strStarts mime "image/" then "image"
  else if strStarts mime "audio/" then "audio"
  else if strStarts mime "video/" then "video"
  else "document"

/-! ## Chat payload construction (app.py 250-254 and 307-311) -/

/-- A `files` payload entry (app.py 653-657). -/
structure FilePayload where
  type : String
  transfer_method : String
  upload_file_id : Json

/-- Conversation-tracking session state (`st.session_state.conversation_id`).
The stored value is whatever JSON value the gateway supplied. -/
structure ChatState where
  conversation_id : Option Json

/-- Truthiness of the stored conversation id (`if st.session_state.conversation_id:`). -/
def stateTruthy (s : ChatState) : Bool :=
  match s.conversation_id with
  | some j => jtruthy j
  | none => false

/-- The JSON body both chat calls build: `conversation_id` is attached
exactly when the stored id is truthy, `files` exactly when the passed
payload list is truthy (the callers pass `files_payload or None`). -/
structure ChatPayload where
  query : String
  response_mode : String
  user : String
  conversation_id : Option Json
  files : Option (List FilePayload)

/-- Build the `/chat-messages` body (app.py 250-254, 307-311). -/
def buildChatPayload (mode query user : String) (s : ChatState)
    (files_payload : Option (List FilePayload)) : ChatPayload :=
  { query := query
    response_mode := mode
    user := user
    conversation_id := if stateTruthy s then s.conversation_id else none
    files :=
      match files_payload with
      | some l => if l.isEmpty then none else some l
      | none => none }

/-- `if conv_id and not st.session_state.conversation_id:` — latch the id
on first sight; an established (truthy) id is never overwritten. -/
def latch (s : ChatState) (conv : Option Json) : ChatState :=
  match conv with
  | some c => if jtruthy c && !stateTruthy s then { conversation_id := some c } else s
  | none => s

/-! ## `dify_stream_chat` event-stream loop (app.py 249-300)

Each element of the response's `iter_lines` is one raw line.  `json.loads`
is the `decode` oracle (`none` = the decode raised, which the source turns
into `continue`). -/

/-- Dify event kinds that stream incremental tokens (app.py line 282). -/
def incrementalEvents : List String :=
  ["message", "agent_message", "tool_message", "message_delta"]

/-- Dify event kinds that terminate the stream (app.py line 289). -/
def terminalEvents : List String :=
  ["message_end", "agent_message_end", "completed", "workflow_finished"]

/-- `delta = evt.get("answer") or evt.get("output_text") or evt.get("data") or ""`,
then `if isinstance(delta, dict): delta = delta.get("text") or delta.get("content") or ""`. -/
def resolveDict (d : Json) : Json :=
  match d with
  | .obj _ => pyOr (jget d "text") (pyOr (jget d "content") (Json.str ""))
  | _ => d

/-- The incremental-token delta of an event (app.py 283-285). -/
def deltaOf (evt : Json) : Json :=
  resolveDict (pyOr (jget evt "answer") (pyOr (jget evt "output_text")
    (pyOr (jget evt "data") (Json.str ""))))

/-- The trailing text of a terminal event (app.py 291-293). -/
def tailOf (evt : Json) : Json :=
  resolveDict (pyOr (jget evt "answer") (pyOr (jget evt "output_text") (Json.str "")))

/-- The error-event message (app.py 299): `evt.get("message") or
evt.get("error") or "Model error"`. -/
def errMsgOf (evt : Json) : Json :=
  pyOr (jget evt "message") (pyOr (jget evt "error") (Json.str "Model error"))

/-- How the stream ends: normally, aborted by a gateway `error` event
(`raise RuntimeError(err_msg)`), failed with an HTTP error status before
any event, or crashed on `evt.get` applied to a non-dict event payload. -/
inductive StreamOutcome where
  | done : StreamOutcome
  | modelError : String → StreamOutcome
  | httpError : String → StreamOutcome
  | attrError : StreamOutcome

/-- Effect of one raw line on the consumption loop. -/
inductive StepRes where
  | skip : ChatState → StepRes
  | yieldD : String → ChatState → StepRes
  | stop : List String → ChatState → StepRes
  | fail : ChatState → StreamOutcome → StepRes

/-- `data:`-payload of a raw line, when the line is none of the skipped
shapes (blank, `:`-comment, missing `data:`, blank payload). -/
def frameData (raw : String) : Option String :=
  if raw = "" || strStarts raw ":" then none
  else if !strStarts raw "data:" then none
  else
    let data_str := strTrim (strDropn raw 5)
    if data_str = "" then none else some data_str

/-- One iteration of the `for raw in r.iter_lines()` body (app.py 265-300). -/
def streamStep (decode : String → Option Json) (s : ChatState) (raw : String) : StepRes :=
  match frameData raw with
  | none => .skip s
  | some data_str =>
    match decode data_str with
    | none => .skip s
    | some evt =>
      match evt with
      | .obj _ =>
        let s1 := latch s (jget evt "conversation_id")
        match jget evt "event" with
        | some (.str e) =>
          if e ∈ incrementalEvents then
            let delta := deltaOf evt
            if jtruthy delta then .yieldD (pyStr delta) s1 else .skip s1
          else if e ∈ terminalEvents then
            let tl := tailOf evt
            .stop (if jtruthy tl then [pyStr tl] else []) s1
          else if e = "error" then
            .fail s1 (.modelError (pyStr (errMsgOf evt)))
          else .skip s1
        | _ => .skip s1
      | _ => .fail s (.attrError)

/-- Result of consuming the whole event stream. -/
structure StreamRun where
  yields : List String
  state : ChatState
  outcome : StreamOutcome

/-- The consumption loop over all raw lines: yields are accumulated in
order; a terminal event breaks (later lines are not read); an error event
aborts. -/
def streamBody (decode : String → Option Json) : List String → ChatState → StreamRun
  | [], s => ⟨[], s, .done⟩
  | raw :: rest, s =>
    match streamStep decode s raw with
    | .skip s1 => streamBody decode rest s1
    | .yieldD d s1 =>
      let r := streamBody decode rest s1
      ⟨d :: r.yields, r.state, r.outcome⟩
    | .stop tl s1 => ⟨tl, s1, .done⟩
    | .fail s1 o => ⟨[], s1, o⟩

/-- `dify_stream_chat` (app.py 249-300): raise on an HTTP error status
(`f"\x7br.status_code\x7d: \x7berr\x7d"`), else run the event loop.  The
request body is `buildChatPayload "streaming" ...`. -/
def dify_stream_chat (decode : String → Option Json) (status : Nat) (errBody : Json)
    (lines : List String) (s : ChatState) : StreamRun :=
  if 400 ≤ status then ⟨[], s, .httpError (toString status ++ ": " ++ pyStr errBody)⟩
  else streamBody decode lines s

/-! ## `dify_blocking_chat` (app.py 303-350)

Exceptions are explicit: `.error msg` is the raised `RuntimeError` (or the
uncaught `AttributeError` from `.get` on a non-dict, reported as
`"AttributeError"`). -/

/-- The raised empty-answer message (app.py 349). -/
def emptyAnswerMsg : String := "Dify returned no answer in blocking mode."

/-- `pick(obj)` (app.py 328-335): first key among `answer`, `output_text`,
`text`, `content` whose value is a string with non-blank strip; returns
the unstripped value; `None` on a non-dict. -/
def pickKeys (obj : Json) : List String → Option String
  | [] => none
  | k :: ks =>
    match jget obj k with
    | some (.str v) => if strTrim v ≠ "" then some v else pickKeys obj ks
    | _ => pickKeys obj ks

/-- `pick` with its `isinstance(obj, dict)` guard. -/
def pick (obj : Json) : Option String :=
  match obj with
  | .obj _ => pickKeys obj ["answer", "output_text", "text", "content"]
  | _ => none

/-- Text usable from one message entry: `pick(m) or pick(m.get("data", \x7b\x7d))`
for a dict entry; a non-dict entry only offers `pick(m)` (its `.get` raises). -/
def usableText (m : Json) : Option String :=
  match pick m with
  | some a => some a
  | none =>
    match m with
    | .obj _ => pick (jgetD m "data" (Json.obj []))
    | _ => none

/-- `for m in reversed(msgs)` (app.py 344-347), applied to the already
reversed list: stop at the first entry with usable text; a non-dict entry
whose `pick` fails raises `AttributeError` at `m.get("data", \x7b\x7d)`. -/
def msgsLoop : List Json → Except String (Option String)
  | [] => .ok none
  | m :: rest =>
    match pick m with
    | some a => .ok (some a)
    | none =>
      match m with
      | .obj _ =>
        match pick (jgetD m "data" (Json.obj [])) with
        | some a => .ok (some a)
        | none => msgsLoop rest
      | _ => .error "AttributeError"

/-- The messages list the source scans: taken from `j.get("data") or
j.get("result") or \x7b\x7d` when that value is a dict holding a list
under `"messages"`. -/
def msgsOf (j : Json) : Option (List Json) :=
  let data := pyOr (jget j "data") (pyOr (jget j "result") (Json.obj []))
  match data with
  | .obj _ =>
    match jget data "messages" with
    | some (.arr l) => some l
    | _ => none
  | _ => none

/-- Answer extraction (app.py 337-350): `pick(j) or pick(j.get("data", \x7b\x7d))
or pick(j.get("result", \x7b\x7d))`, then the reversed messages scan, then
`raise RuntimeError("Dify returned no answer in blocking mode.")`. -/
def blockingExtract (j : Json) : Except String String :=
  match pick j with
  | some a => .ok a
  | none =>
    match pick (jgetD j "data" (Json.obj [])) with
    | some a => .ok a
    | none =>
      match pick (jgetD j "result" (Json.obj [])) with
      | some a => .ok a
      | none =>
        match msgsOf j with
        | some l =>
          if l.isEmpty then .error emptyAnswerMsg
          else
            match msgsLoop l.reverse with
            | .error e => .error e
            | .ok (some a) => .ok a
            | .ok none => .error emptyAnswerMsg
        | none => .error emptyAnswerMsg

/-- `conv_id = j.get("conversation_id") or j.get("result", \x7b\x7d).get("conversation_id")`
(app.py 323): lazily evaluated, so the second `.get` (which raises on a
non-dict `result`) only runs when the first is falsy. -/
def blockingConvVal (j : Json) : Except String Json :=
  let c1 := jgetN j "conversation_id"
  if jtruthy c1 then .ok c1
  else
    match jgetD j "result" (Json.obj []) with
    | .obj fields => .ok (jgetN (Json.obj fields) "conversation_id")
    | _ => .error "AttributeError"

/-- `dify_blocking_chat` (app.py 303-350) after the HTTP exchange: check
the status, latch the conversation id, extract the answer.  Returns the
updated session state together with the answer or the raised error. -/
def dify_blocking_chat (s : ChatState) (status : Nat) (body : Json) :
    ChatState × Except String String :=
  if 400 ≤ status then (s, .error (toString status ++ ": " ++ pyStr body))
  else
    match body with
    | .obj _ =>
      match blockingConvVal body with
      | .error e => (s, .error e)
      | .ok conv =>
        let s1 := if jtruthy conv && !stateTruthy s then { conversation_id := some conv } else s
        (s1, blockingExtract body)
    | _ => (s, .error "AttributeError")

/-! ## `dify_upload_file` (app.py 234-246) and the upload loop (611-676)

File contents are byte lists (`List Nat`); the fingerprint function
(`hashlib.sha256(...).hexdigest()` in the source) is an abstract parameter
`hashF : List Nat → α`, since only equality of fingerprints matters to the
loop's logic.  The HTTP upload exchange is an oracle
`uploadResp name bytes mime : Option (Nat × Json)` (`none` = the request
raised). -/

/-- `dify_upload_file` (app.py 234-246): raise on HTTP error, extract
`j.get("id") or j.get("data", \x7b\x7d).get("id")` (lazy `or`; non-dict
navigation raises), raise on a falsy id, else return the raw id value. -/
def dify_upload_file (resp : Option (Nat × Json)) : Except String Json :=
  match resp with
  | none => .error "requests exception"
  | some (status, j) =>
    if 400 ≤ status then .error ("Upload failed (" ++ toString status ++ "): " ++ pyStr j)
    else
      match j with
      | .obj _ =>
        let a := jgetN j "id"
        if jtruthy a then .ok a
        else
          match jgetD j "data" (Json.obj []) with
          | .obj dfields =>
            let b := jgetN (Json.obj dfields) "id"
            if jtruthy b then .ok b
            else .error ("Unexpected upload response: " ++ pyStr j)
          | _ => .error "AttributeError"
      | _ => .error "AttributeError"

/-- One selected file: name, raw bytes, and the browser-reported MIME type
(`uf.type`, possibly absent/empty). -/
structure FileIn where
  name : String
  content : List Nat
  mimeType : Option String

/-- A value of `st.session_state.uploaded_fps` (app.py 641-645). -/
structure UploadedRec where
  id : Json
  type : String
  name : String

/-- Upload-tracking session state: the fingerprint table (insertion
ordered, as a Python dict) and the last computed payload. -/
structure UpState (α : Type) where
  uploaded_fps : List (α × UploadedRec)
  uploaded_payload : List FilePayload

/-- First binding of a fingerprint in the table (`fp in st.session_state.uploaded_fps`). -/
def lookupFp {α : Type} [DecidableEq α] (t : List (α × UploadedRec)) (fp : α) : Option UploadedRec :=
  match t with
  | [] => none
  | (k, v) :: rest => if k = fp then some v else lookupFp rest fp

/-- The 15 MB per-file limit (app.py 628): `15 * 1024 * 1024` bytes. -/
def sizeLimit : Nat := 15 * 1024 * 1024

/-- Hundredths of megabytes, i.e. `len(data) / (1024*1024)` rounded to two
decimals.  Python formats the quotient with `:.2f` on a binary float;
this models it as exact-rational rounding, half to even. -/
def hundredthsMB (bytes : Nat) : Nat :=
  let n := bytes * 100
  let d := 1024 * 1024
  let q := n / d
  let r := n % d
  if 2 * r < d then q else if d < 2 * r then q + 1 else if q % 2 = 0 then q else q + 1

/-- Two-digit fractional part. -/
def pad2 (n : Nat) : String := if n < 10 then "0" ++ toString n else toString n

/-- `f"\x7bsize_mb:.2f\x7d"` for `size_mb = len(data)/(1024*1024)`. -/
def fmtMB (bytes : Nat) : String :=
  toString (hundredthsMB bytes / 100) ++ "." ++ pad2 (hundredthsMB bytes % 100)

/-- The size-violation message (app.py 632):
`f"\x7buf.name\x7d is \x7bsize_mb:.2f\x7d MB. Maximum allowed is 15 MB."`. -/
def sizeErrorMsg (name : String) (bytes : Nat) : String :=
  name ++ " is " ++ fmtMB bytes ++ " MB. Maximum allowed is 15 MB."

/-- The upload-failure banner (app.py 649). -/
def uploadErrorDisplay (details : String) : String :=
  "Attachment upload failed — model is sleeping 😴. Try reloading.\n\nDetails: " ++ details

/-- How the selection-change loop ends: all files ready, or stopped
(`st.stop()`) by the size check or by a failed upload (the latter carrying
the offending file's fingerprint, for bookkeeping statements). -/
inductive UpOutcome (α : Type) where
  | ok : UpOutcome α
  | sizeError : String → UpOutcome α
  | uploadError : String → α → UpOutcome α

/-- One upload request actually sent to the gateway. -/
structure UploadCall where
  name : String
  content : List Nat
  mime : String

/-- What the per-file loop produced: the fingerprint table after its
in-place mutations, the `current_fps` list, the payload under
construction, the log of upload calls actually sent, and how it ended. -/
structure LoopRes (α : Type) where
  fps : List (α × UploadedRec)
  cur : List α
  payload : List FilePayload
  log : List UploadCall
  outcome : UpOutcome α

/-- The per-file loop (app.py 625-663).  Mutations of `uploaded_fps`
happen in place, exactly as in the source: an entry is added only after a
successful upload, and a stop (`st.stop()`) leaves all previous mutations
behind. -/
def uploadLoop {α : Type} [DecidableEq α] (hashF : List Nat → α)
    (guessType : String → Option String)
    (uploadResp : String → List Nat → String → Option (Nat × Json)) :
    List FileIn → List (α × UploadedRec) → LoopRes α
  | [], fps => ⟨fps, [], [], [], .ok⟩
  | f :: rest, fps =>
    if f.content.length > sizeLimit then
      ⟨fps, [], [], [], .sizeError (sizeErrorMsg f.name f.content.length)⟩
    else
      let mime := pyOrS f.mimeType (pyOrS (guessType f.name) "application/octet-stream")
      let fp := hashF f.content
      match lookupFp fps fp with
      | none =>
        match dify_upload_file (uploadResp f.name f.content mime) with
        | .error e =>
          ⟨fps, [fp], [], [⟨f.name, f.content, mime⟩], .uploadError (uploadErrorDisplay e) fp⟩
        | .ok uid =>
          let rec1 : UploadedRec := ⟨uid, _infer_file_type mime, f.name⟩
          let pl : FilePayload := ⟨rec1.type, "local_file", rec1.id⟩
          let res := uploadLoop hashF guessType uploadResp rest (fps ++ [(fp, rec1)])
          ⟨res.fps, fp :: res.cur, pl :: res.payload, ⟨f.name, f.content, mime⟩ :: res.log,
            res.outcome⟩
      | some rec0 =>
        let pl : FilePayload := ⟨rec0.type, "local_file", rec0.id⟩
        let res := uploadLoop hashF guessType uploadResp rest fps
        ⟨res.fps, fp :: res.cur, pl :: res.payload, res.log, res.outcome⟩

/-- What a selection change left behind: the session state, the upload
calls sent, and how the flow ended. -/
structure ProcRes (α : Type) where
  state : UpState α
  log : List UploadCall
  outcome : UpOutcome α

/-- The whole selection-change flow (app.py 611-676): an empty selection
takes the `else` branch, which only clears `uploaded_payload`; a non-empty
selection runs the loop, and on success evicts fingerprints no longer
selected (app.py 666-667) and installs the new payload (app.py 669); a
stop leaves the table and payload as the loop left them. -/
def processFiles {α : Type} [DecidableEq α] (hashF : List Nat → α)
    (guessType : String → Option String)
    (uploadResp : String → List Nat → String → Option (Nat × Json))
    (files : List FileIn) (s : UpState α) : ProcRes α :=
  if files.isEmpty then ⟨{ s with uploaded_payload := [] }, [], .ok⟩
  else
    let res := uploadLoop hashF guessType uploadResp files s.uploaded_fps
    match res.outcome with
    | .ok =>
      ⟨{ uploaded_fps := res.fps.filter (fun kv => kv.1 ∈ res.cur),
         uploaded_payload := res.payload }, res.log, .ok⟩
    | .sizeError m => ⟨{ s with uploaded_fps := res.fps }, res.log, .sizeError m⟩
    | .uploadError m fp => ⟨{ s with uploaded_fps := res.fps }, res.log, .uploadError m fp⟩

/-- Count the upload calls whose content has a given fingerprint. -/
def countFp {α : Type} [DecidableEq α] (hashF : List Nat → α) (fp : α) (log : List UploadCall) : Nat :=
  log.countP (fun e => decide (hashF e.content = fp))

/-- Count the upload calls for one exact byte content. -/
def countContent (c : List Nat) (log : List UploadCall) : Nat :=
  log.countP (fun e => decide (e.content = c))

/-! ## The submit flow (app.py 682-729) -/

/-- `RANDOM_QUERIES` (app.py 690-695). -/
def RANDOM_QUERIES : List String :=
  ["Scan this pitch deck and give a crisp summary (company, problem, solution, traction, ask).",
   "Extract key metrics, GTM, business model, competitors and risks from this deck.",
   "Summarize the opportunity, product, moat, and top 5 red flags in this deck.",
   "Create a bullet summary of team, roadmap, market size, business model and funding ask."]

/-- `query = random.choice(RANDOM_QUERIES)` (app.py 696): the random draw
is an index into the fixed list. -/
def chooseQuery (i : Fin 4) : String := RANDOM_QUERIES.get (Fin.cast (by decide) i)

/-- The friendly error banner (app.py 727). -/
def friendlyErrorMsg : String := "Model is sleeping 😴. Try to reload the app."

/-- What the `start` block produced: the streaming request body it sent,
whether the blocking fallback ran, the caught error (friendly banner plus
the expandable technical detail) if any, the stored `last_output`, the
rendered report, and the session state at the end. -/
structure FlowResult where
  streamPayload : ChatPayload
  blockingCalled : Bool
  displayedError : Option (String × String)
  lastOutput : Option String
  rendered : Option String
  finalState : ChatState

/-- The `if start:` block (app.py 682-729): choose a query, stream the
answer while collecting chunks, fall back to the blocking call when the
aggregated text strips to empty, post-format with `format_with_openai`,
render; any exception is caught at this boundary and shown as the friendly
banner with the technical detail, with no retry. -/
def startFlow (i : Fin 4) (user : String) (files_payload : List FilePayload) (s : ChatState)
    (decode : String → Option Json) (streamStatus : Nat) (streamErrBody : Json)
    (streamLines : List String) (blockStatus : Nat) (blockBody : Json)
    (openaiKey : String) (openaiResp : Option (Nat × Json)) : FlowResult :=
  let query := chooseQuery i
  let payload := buildChatPayload "streaming" query user s
    (if files_payload.isEmpty then none else some files_payload)
  let run := dify_stream_chat decode streamStatus streamErrBody streamLines s
  match run.outcome with
  | .done =>
    let final_text := strTrim (strJoin run.yields)
    if final_text = "" then
      match dify_blocking_chat run.state blockStatus blockBody with
      | (s2, .error e) => ⟨payload, true, some (friendlyErrorMsg, e), none, none, s2⟩
      | (s2, .ok t) =>
        let final_output := format_with_openai openaiKey openaiResp t
        ⟨payload, true, none, some final_output, some (renderResult final_output), s2⟩
    else
      let final_output := format_with_openai openaiKey openaiResp final_text
      ⟨payload, false, none, some final_output, some (renderResult final_output), run.state⟩
  | .modelError m => ⟨payload, false, some (friendlyErrorMsg, m), none, none, run.state⟩
  | .httpError m => ⟨payload, false, some (friendlyErrorMsg, m), none, none, run.state⟩
  | .attrError => ⟨payload, false, some (friendlyErrorMsg, "AttributeError"), none, none, run.state⟩

/-! ## The specification's three-tier normalizer (refinement target)

Modelled from the spec: spec.md §4.2 describes a Response Normalizer with
a strict-schema JSON tier, a heuristic section-header tier and a verbatim
passthrough tier.  No such code exists in `src/app.py` (its only
normalization is `format_with_openai` above), so the definitions below
follow the specification's words; they exist solely to be compared with
the source's behaviour. -/

/-- Lowercase an ASCII letter (spec: header matching is case-insensitive). -/
def lowerChar (c : Char) : Char :=
  if 'A' ≤ c && c ≤ 'Z' then Char.ofNat (c.toNat + 32) else c

/-- Lowercase a character list. -/
def toLowerList (l : List Char) : List Char := l.map lowerChar

/-- Strip an optional trailing colon/dash (and trailing blanks), as the
spec's header patterns allow. -/
def stripTrail (l : List Char) : List Char :=
  (l.reverse.dropWhile (fun c => c = ':' || c = '-' || isSpaceChar c)).reverse

/-- Split a string into lines. -/
def splitLinesAux : List Char → List Char → List (List Char)
  | [], acc => [acc.reverse]
  | c :: rest, acc =>
    if c = '\n' then acc.reverse :: splitLinesAux rest []
    else splitLinesAux rest (c :: acc)

/-- All lines of a text. -/
def splitLines (s : String) : List String := (splitLinesAux s.data []).map String.mk

/-- The heuristic tier's section cursor (spec.md §4.2 strategy 2). -/
inductive Sect where
  | verdict | reason | strengths | redFlags | addS | removeMergeS | changeS
  | consistency | actionPlan | dataPoints
deriving DecidableEq

/-- Modelled from the spec: the fixed ordered header-recognition patterns
of §4.2 strategy 2 (verdict/status, reason/why, strengths/pros,
red-flags/risks/must-fix, the Improvement Tips super-section with nested
add / remove-merge / change sub-headers, consistency-check, action-plan,
data-points). -/
def headerKeywords : List (String × Sect) :=
  [("verdict", .verdict), ("status", .verdict),
   ("reason", .reason), ("why", .reason),
   ("strengths", .strengths), ("pros", .strengths),
   ("red flags", .redFlags), ("red flags (high priority concerns)", .redFlags),
   ("risks", .redFlags), ("must-fix", .redFlags), ("must fix", .redFlags),
   ("improvement tips", .addS), ("add", .addS),
   ("remove / merge", .removeMergeS), ("remove/merge", .removeMergeS),
   ("remove or merge", .removeMergeS),
   ("change", .changeS),
   ("consistency check", .consistency), ("consistency checks", .consistency),
   ("action plan", .actionPlan), ("the action plan", .actionPlan),
   ("data points", .dataPoints), ("data to collect", .dataPoints),
   ("data points (can include)", .dataPoints)]

/-- Which section header, if any, a line is (case-insensitive, optional
trailing colon/dash). -/
def headerSect (line : String) : Option Sect :=
  let key := String.mk (stripTrail (toLowerList (trimList line.data)))
  (headerKeywords.find? (fun kv => kv.1 == key)).map (·.2)

/-- Modelled from the spec: the fixed set of common bullet glyphs. -/
def bulletGlyphs : List Char := ['-', '*', '•', '·', '–', '—', '○', '▪']

/-- Content of a bullet-marker line, when the line is one. -/
def bulletContent (line : String) : Option String :=
  match trimList line.data with
  | [] => none
  | c :: rest => if c ∈ bulletGlyphs then some (String.mk (trimList rest)) else none

/-- The heuristic tier's report under construction: one list of normalized
lines per section of the Report Schema (spec.md §3). -/
structure SpecReport where
  verdictS : List String
  reasonS : List String
  strengthsS : List String
  redFlagsS : List String
  slidesToAdd : List String
  slidesToRemoveOrMerge : List String
  slidesToChange : List String
  consistencyChecks : List String
  actionPlanS : List String
  dataToCollect : List String

/-- The all-empty report skeleton. -/
def emptyReport : SpecReport := ⟨[], [], [], [], [], [], [], [], [], []⟩

/-- Append one item to the section the cursor points at. -/
def addTo (r : SpecReport) (sec : Sect) (item : String) : SpecReport :=
  match sec with
  | .verdict => { r with verdictS := r.verdictS ++ [item] }
  | .reason => { r with reasonS := r.reasonS ++ [item] }
  | .strengths => { r with strengthsS := r.strengthsS ++ [item] }
  | .redFlags => { r with redFlagsS := r.redFlagsS ++ [item] }
  | .addS => { r with slidesToAdd := r.slidesToAdd ++ [item] }
  | .removeMergeS => { r with slidesToRemoveOrMerge := r.slidesToRemoveOrMerge ++ [item] }
  | .changeS => { r with slidesToChange := r.slidesToChange ++ [item] }
  | .consistency => { r with consistencyChecks := r.consistencyChecks ++ [item] }
  | .actionPlan => { r with actionPlanS := r.actionPlanS ++ [item] }
  | .dataPoints => { r with dataToCollect := r.dataToCollect ++ [item] }

/-- Heuristic scan state: current section cursor, whether the first
unlabeled bullet block has been closed (spec: its bullets go to
"strengths", overflow to "red flags"), and the report so far. -/
structure HState where
  cur : Option Sect
  unlabeledDone : Bool
  report : SpecReport

/-- Modelled from the spec: one line of the §4.2 strategy-2 scan.  A header
line switches the cursor and is consumed; a bullet line is normalized to a
dash bullet and appended to the current section (with no section yet:
first unlabeled block to strengths, later ones to red flags); any other
non-blank line is prose, filling `reason` first and then `action plan`. -/
def heuristicStep (st : HState) (line : String) : HState :=
  if trimList line.data = [] then
    if st.cur = none && !st.report.strengthsS.isEmpty then { st with unlabeledDone := true }
    else st
  else
    match headerSect line with
    | some sec => { st with cur := some sec }
    | none =>
      match bulletContent line with
      | some content =>
        let item := "- " ++ content
        match st.cur with
        | some sec => { st with report := addTo st.report sec item }
        | none =>
          if st.unlabeledDone then { st with report := addTo st.report .redFlags item }
          else { st with report := addTo st.report .strengths item }
      | none =>
        let t := String.mk (trimList line.data)
        if st.report.reasonS.isEmpty then { st with report := addTo st.report .reason t }
        else { st with report := addTo st.report .actionPlan t }

/-- Modelled from the spec: the heuristic section-header parse (it never
fails; an empty input yields the empty skeleton). -/
def heuristicParse (text : String) : SpecReport :=
  ((splitLines text).foldl heuristicStep ⟨none, false, emptyReport⟩).report

/-- Does the heuristic tier's report carry anything at all? -/
def reportNonempty (r : SpecReport) : Bool :=
  !r.verdictS.isEmpty || !r.reasonS.isEmpty || !r.strengthsS.isEmpty ||
  !r.redFlagsS.isEmpty || !r.slidesToAdd.isEmpty || !r.slidesToRemoveOrMerge.isEmpty ||
  !r.slidesToChange.isEmpty || !r.consistencyChecks.isEmpty || !r.actionPlanS.isEmpty ||
  !r.dataToCollect.isEmpty

/-- Modelled from the spec: render one section — a fixed header, the items,
or a single literal placeholder line when empty (§4.2 rendering rules). -/
def renderSpecSection (title : String) (items : List String) : String :=
  "**" ++ title ++ "**\n" ++
  (if items.isEmpty then "- Not present\n" else strJoin (items.map (· ++ "\n")))

/-- Modelled from the spec: the fixed section layout of §4.2 (verdict,
reason, strengths, red flags, add / remove-merge / change, consistency
check, action plan, data points) closed by the call-to-action line with
the scheduling link. -/
def specRender (r : SpecReport) : String :=
  renderSpecSection "Verdict" r.verdictS ++
  renderSpecSection "Reason" r.reasonS ++
  renderSpecSection "Strengths" r.strengthsS ++
  renderSpecSection "Red Flags (High Priority Concerns)" r.redFlagsS ++
  renderSpecSection "Add" r.slidesToAdd ++
  renderSpecSection "Remove / Merge" r.slidesToRemoveOrMerge ++
  renderSpecSection "Change" r.slidesToChange ++
  renderSpecSection "Consistency Check" r.consistencyChecks ++
  renderSpecSection "The Action Plan" r.actionPlanS ++
  renderSpecSection "Data Points (Can Include)" r.dataToCollect ++
  "Schedule a Demo Call\nhttps://calendly.com/tdefi_project_calls/45min\n"

/-- The outermost `\x7b...\x7d` span of a text (first `\x7b` to last
`\x7d`), when present. -/
def braceSpan (l : List Char) : Option (List Char) :=
  match l.findIdx? (fun c => c = Char.ofNat 123) with
  | none => none
  | some i =>
    match l.reverse.findIdx? (fun c => c = Char.ofNat 125) with
    | none => none
    | some rj =>
      let j := l.length - 1 - rj
      if i ≤ j then some ((l.drop i).take (j - i + 1)) else none

/-- Modelled from the spec: tier 1, the strict-schema parse — locate the
outermost brace span and decode it against the Report Schema (the decoder
is an oracle, as JSON decoding is a library call); render on success.
Code fences lie outside the brace span, so taking the span strips them. -/
def specTier1 (decodeReport : String → Option SpecReport) (text : String) : Option String :=
  match braceSpan text.data with
  | none => none
  | some span => (decodeReport (String.mk span)).map specRender

/-- Modelled from the spec: the full three-tier pipeline of §4.2 — strict
JSON parse, else the heuristic parse when it produced anything usable,
else the verbatim passthrough. -/
def specNormalize (decodeReport : String → Option SpecReport) (text : String) : String :=
  match specTier1 decodeReport text with
  | some rendered => rendered
  | none =>
    let r := heuristicParse text
    if reportNonempty r then specRender r else text

/-- The end-to-end heuristic example of spec.md §8. -/
def heuristicInput : String :=
  "Strengths\n- Good traction\nRed Flags\n- No competition slide"

/-- The spec's end-to-end stream scenario, with a few malformed frames
thrown in: two incremental frames with deltas `"Hello"` and `" world"`,
then a terminal frame with no additional text. -/
def helloLines : List String :=
  ["", ": keep-alive",
   "data: \x7b\"event\": \"message\", \"answer\": \"Hello\"\x7d",
   "event: junk",
   "data: not-json",
   "data: \x7b\"event\": \"message\", \"answer\": \" world\"\x7d",
   "data: \x7b\"event\": \"message_end\"\x7d"]

/-- A `json.loads` oracle for the frames of `helloLines` (everything else
fails to decode). -/
def helloDecode : String → Option Json := fun s =>
  if s = "\x7b\"event\": \"message\", \"answer\": \"Hello\"\x7d" then
    some (Json.obj [("event", Json.str "message"), ("answer", Json.str "Hello")])
  else if s = "\x7b\"event\": \"message\", \"answer\": \" world\"\x7d" then
    some (Json.obj [("event", Json.str "message"), ("answer", Json.str " world")])
  else if s = "\x7b\"event\": \"message_end\"\x7d" then
    some (Json.obj [("event", Json.str "message_end")])
  else none

/-- The session state a step leaves behind. -/
def stepState : StepRes → ChatState
  | .skip s => s
  | .yieldD _ s => s
  | .stop _ s => s
  | .fail s _ => s

/-- C3 counterexample: a stream whose gateway reports an error after a
first event carrying conversation id `"c1"`.  The flow fails (friendly
banner, technical detail `"boom"`), yet the conversation id latched during
the failed flow remains in the session state — it is not rolled back to
`none` as the claim requires. -/
def convErrLines : List String :=
  ["data: \x7b\"event\": \"message\", \"conversation_id\": \"c1\", \"answer\": \"hi\"\x7d",
   "data: \x7b\"event\": \"error\", \"message\": \"boom\"\x7d"]

/-- A `json.loads` oracle for `convErrLines`. -/
def convErrDecode : String → Option Json := fun s =>
  if s = "\x7b\"event\": \"message\", \"conversation_id\": \"c1\", \"answer\": \"hi\"\x7d" then
    some (Json.obj [("event", Json.str "message"), ("conversation_id", Json.str "c1"),
      ("answer", Json.str "hi")])
  else if s = "\x7b\"event\": \"error\", \"message\": \"boom\"\x7d" then
    some (Json.obj [("event", Json.str "error"), ("message", Json.str "boom")])
  else none

/-- The MIME type the loop computes for a file (app.py 634). -/
def loopMime (guessType : String → Option String) (f : FileIn) : String :=
  pyOrS f.mimeType (pyOrS (guessType f.name) "application/octet-stream")

/-- The upload call the loop sends for a file. -/
def loopCall (guessType : String → Option String) (f : FileIn) : UploadCall :=
  ⟨f.name, f.content, loopMime guessType f⟩

/-- The record stored after a successful upload (app.py 641-645). -/
def loopRec (guessType : String → Option String) (f : FileIn) (uid : Json) : UploadedRec :=
  ⟨uid, _infer_file_type (loopMime guessType f), f.name⟩

/-- The message list the source scans, as a plain list. -/
def msgsList (j : Json) : List Json := (msgsOf j).getD []

/-- C6 counterexample: the body
`\x7b"data": \x7b"x": 1\x7d, "result": \x7b"messages": [\x7b"answer": "hi"\x7d]\x7d\x7d`
carries a nested message list whose last message yields the non-blank text
`"hi"`, yet the blocking extraction raises the empty-response error: the
truthy `data` object shadows `result`, so `result`'s message list is never
searched. -/
def blockingCexBody : Json :=
  Json.obj [("data", Json.obj [("x", Json.num 1)]),
    ("result", Json.obj [("messages", Json.arr [Json.obj [("answer", Json.str "hi")]])])]

/-! ## Helper lemmas -/

/-- Whatever the stream outcome, `startFlow` sends the payload built from
the chosen query. -/
theorem startFlow_streamPayload (i : Fin 4) (user : String) (files : List FilePayload)
    (s : ChatState) (decode : String → Option Json) (st : Nat) (eb : Json)
    (sl : List String) (bs : Nat) (bb : Json) (k : String) (o : Option (Nat × Json)) :
    (startFlow i user files s decode st eb sl bs bb k o).streamPayload =
      buildChatPayload "streaming" (chooseQuery i) user s
        (if files.isEmpty then none else some files) := by
  unfold startFlow
  dsimp only
  split
  · split
    · split <;> rfl
    · rfl
  · rfl
  · rfl
  · rfl

/-! ## Claim theorems -/

/-- C9: `_infer_file_type` is total with range
`\x7bimage, audio, video, document\x7d`; a missing/empty MIME type and any
MIME type whose prefix is none of `image/`, `audio/`, `video/` map to
`document`. -/
theorem infer_file_type_total (m : String) :
    (_infer_file_type m = "image" ∨ _infer_file_type m = "audio" ∨
      _infer_file_type m = "video" ∨ _infer_file_type m = "document") ∧
    (m = "" → _infer_file_type m = "document") ∧
    (strStarts m "image/" = false → strStarts m "audio/" = false →
      strStarts m "video/" = false → _infer_file_type m = "document") := by
  unfold _infer_file_type
  split_ifs <;> simp_all

/-- Witness for C9 at concrete MIME types. -/
theorem infer_file_type_total_witness :
    _infer_file_type "" = "document" ∧ _infer_file_type "application/pdf" = "document" ∧
    _infer_file_type "image/png" = "image" := by
  refine ⟨(infer_file_type_total "").2.1 rfl, ?_, ?_⟩
  · exact (infer_file_type_total "application/pdf").2.2 (by decide) (by decide) (by decide)
  · have h := (infer_file_type_total "image/png").1
    revert h
    decide

/-- C10: the query sent on every submission is one of the four fixed
`RANDOM_QUERIES` strings, picked by the random draw alone — it does not
depend on the user, the selected files, the session state or any other
user-supplied data. -/
theorem query_from_fixed_set :
    RANDOM_QUERIES.length = 4 ∧
    (∀ i : Fin 4, chooseQuery i ∈ RANDOM_QUERIES) ∧
    (∀ (i : Fin 4) u1 u2 f1 f2 s1 s2 d1 d2 st1 st2 eb1 eb2 sl1 sl2 bs1 bs2 bb1 bb2 k1 k2 o1 o2,
      (startFlow i u1 f1 s1 d1 st1 eb1 sl1 bs1 bb1 k1 o1).streamPayload.query =
        (startFlow i u2 f2 s2 d2 st2 eb2 sl2 bs2 bb2 k2 o2).streamPayload.query) ∧
    (∀ (i : Fin 4) u f s d st eb sl bs bb k o,
      (startFlow i u f s d st eb sl bs bb k o).streamPayload.query ∈ RANDOM_QUERIES) := by
  refine ⟨rfl, fun i => List.get_mem _ _ _, ?_, ?_⟩
  · intro i u1 u2 f1 f2 s1 s2 d1 d2 st1 st2 eb1 eb2 sl1 sl2 bs1 bs2 bb1 bb2 k1 k2 o1 o2
    rw [startFlow_streamPayload, startFlow_streamPayload]
    rfl
  · intro i u f s d st eb sl bs bb k o
    rw [startFlow_streamPayload]
    exact List.get_mem _ _ _

/-- C1 counterexample: on a text the specification's heuristic tier parses
into a populated report (so verbatim passthrough would be reached only as
a worst case), the source's normalizer — `format_with_openai`, here with
no reformatting credential — already returns the text verbatim: the
claimed strict-JSON and section-header tiers are never attempted, because
they do not exist in the source. -/
theorem normalizer_tiers_counterexample :
    format_with_openai "" none heuristicInput = heuristicInput ∧
    specNormalize (fun _ => none) heuristicInput ≠ heuristicInput := by
  exact ⟨rfl, by decide⟩

/-- C1 (amended): the source's normalizer is the single optional remote
reformatting pass.  It never raises (it is a total function); with no
credential, a failed request, or an HTTP error status it returns the
original text verbatim; and in every case its value is either the
verbatim text or the non-blank trimmed content of the remote reply. -/
theorem format_with_openai_passthrough (key : String) (resp : Option (Nat × Json)) (t : String) :
    (key = "" → format_with_openai key resp t = t) ∧
    (resp = none → format_with_openai key resp t = t) ∧
    (∀ st j, resp = some (st, j) → 400 ≤ st → format_with_openai key resp t = t) ∧
    (format_with_openai key resp t = t ∨
      ∃ st j c, resp = some (st, j) ∧ st < 400 ∧ openaiContent j = some c ∧
        strTrim c ≠ "" ∧ format_with_openai key resp t = strTrim c) := by
  unfold format_with_openai
  by_cases hk : key = ""
  · simp [hk]
  · rw [if_neg hk]
    cases resp with
    | none => exact ⟨fun h => absurd h hk, fun _ => rfl, fun st j h => Option.noConfusion h, Or.inl rfl⟩
    | some p =>
      obtain ⟨st, j⟩ := p
      dsimp only
      refine ⟨fun h => absurd h hk, fun h => Option.noConfusion h, ?_, ?_⟩
      · intro st' j' heq hge
        obtain ⟨rfl, rfl⟩ : st = st' ∧ j = j' := by
          injection heq with h1
          exact ⟨congrArg Prod.fst h1, congrArg Prod.snd h1⟩
        rw [if_neg (Nat.not_lt.mpr hge)]
      · by_cases hst : st < 400
        · rw [if_pos hst]
          cases hc : openaiContent j with
          | none => exact Or.inl rfl
          | some c =>
            by_cases hne : strTrim c ≠ ""
            · exact Or.inr ⟨st, j, c, rfl, hst, hc, hne, if_pos hne⟩
            · exact Or.inl (if_neg hne)
        · rw [if_neg hst]
          exact Or.inl rfl

/-- Witness for C1's amended theorem at concrete inputs: no credential,
and an HTTP 500 from the reformatting endpoint, both pass through. -/
theorem format_with_openai_passthrough_witness :
    format_with_openai "" none "raw text" = "raw text" ∧
    format_with_openai "sk-key" (some (500, Json.obj [])) "raw text" = "raw text" :=
  ⟨(format_with_openai_passthrough "" none "raw text").1 rfl,
   (format_with_openai_passthrough "sk-key" (some (500, Json.obj [])) "raw text").2.2.1
     500 (Json.obj []) rfl (by decide)⟩

/-- Matching the whole of `l` is a head match. -/
theorem leadsWith_refl (l : List Char) : leadsWith l l = true := by
  induction l with
  | nil => rfl
  | cons c rest ih => simp [leadsWith, ih]

/-- A head match survives extending the text on the right. -/
theorem leadsWith_mono (p : List Char) :
    ∀ a b : List Char, leadsWith p a = true → leadsWith p (a ++ b) = true := by
  induction p with
  | nil => intro a b _; rfl
  | cons c cs ih =>
    intro a b h
    cases a with
    | nil => cases h
    | cons x as =>
      simp only [leadsWith, Bool.and_eq_true] at h ⊢
      exact ⟨h.1, ih as b h.2⟩

/-- A head match against `a ++ b` either stays inside `a` or swallows all
of `a` and continues with a head match of the remainder against `b`. -/
theorem leadsWith_split :
    ∀ (a p b : List Char), leadsWith p (a ++ b) = true →
      leadsWith p a = true ∨ ∃ q, p = a ++ q ∧ leadsWith q b = true := by
  intro a
  induction a with
  | nil => intro p b h; exact Or.inr ⟨p, rfl, h⟩
  | cons x as ih =>
    intro p b h
    cases p with
    | nil => exact Or.inl rfl
    | cons y ps =>
      simp only [List.cons_append, leadsWith, Bool.and_eq_true] at h
      rcases ih ps b h.2 with hin | ⟨q, hq, hqb⟩
      · exact Or.inl (by simp [leadsWith, h.1, hin])
      · exact Or.inr ⟨q, by simp [hq, h.1.symm, decide_eq_true_eq.mp h.1], hqb⟩

/-- The element `lastElem` returns is in the list. -/
theorem mem_of_lastElem : ∀ (l : List Char) (c : Char), lastElem l = some c → c ∈ l := by
  intro l
  induction l with
  | nil => intro c h; cases h
  | cons x rest ih =>
    intro c h
    cases rest with
    | nil =>
      simp only [lastElem] at h
      injection h with h
      simp [h]
    | cons y t =>
      simp only [lastElem] at h
      exact List.mem_cons_of_mem x (ih c h)

/-- If some character of `a` is missing from the pattern, an occurrence at
the head of `a ++ b` cannot cross into `b`. -/
theorem leadsWith_append_of_mem (p a b : List Char) (c : Char)
    (hca : c ∈ a) (hcp : c ∉ p) : leadsWith p (a ++ b) = leadsWith p a := by
  cases hb : leadsWith p a with
  | true => exact leadsWith_mono p a b hb
  | false =>
    cases habs : leadsWith p (a ++ b) with
    | false => rfl
    | true =>
      rcases leadsWith_split a p b habs with hin | ⟨q, hq, _⟩
      · rw [hin] at hb; cases hb
      · exact absurd (hq ▸ List.mem_append_left q hca) hcp

/-- If the first character of `b` is missing from the pattern, an
occurrence at the head of `a ++ b` cannot cross into `b` either. -/
theorem leadsWith_append_of_head (p a b : List Char) (d : Char)
    (hd : b.head? = some d) (hdp : d ∉ p) : leadsWith p (a ++ b) = leadsWith p a := by
  cases hb : leadsWith p a with
  | true => exact leadsWith_mono p a b hb
  | false =>
    cases habs : leadsWith p (a ++ b) with
    | false => rfl
    | true =>
      rcases leadsWith_split a p b habs with hin | ⟨q, hq, hqb⟩
      · rw [hin] at hb; cases hb
      · cases q with
        | nil => rw [hq, List.append_nil] at hb; rw [leadsWith_refl] at hb; cases hb
        | cons e es =>
          cases b with
          | nil => cases hd
          | cons b0 bs =>
            injection hd with hd
            simp only [leadsWith, Bool.and_eq_true] at hqb
            have : e = b0 := decide_eq_true_eq.mp hqb.1
            exact absurd (hq ▸ List.mem_append_right a (by simp [this, hd])) hdp

/-- Unfolding `countOccur` one step. -/
theorem countOccur_cons (x : Char) (l p : List Char) :
    countOccur (x :: l) p = (if leadsWith p (x :: l) = true then 1 else 0) + countOccur l p := rfl

/-- `countOccur` on the empty text. -/
theorem countOccur_nil (p : List Char) : countOccur [] p = 0 := rfl

/-- Occurrence counting distributes over an append whose left part ends in
a character missing from the pattern. -/
theorem countOccur_append_last (p b : List Char) (c : Char) (hcp : c ∉ p) :
    ∀ a : List Char, lastElem a = some c →
      countOccur (a ++ b) p = countOccur a p + countOccur b p := by
  intro a
  induction a with
  | nil => intro h; cases h
  | cons x as ih =>
    intro h
    have hmem : c ∈ x :: as := mem_of_lastElem _ c h
    have hsplit : leadsWith p ((x :: as) ++ b) = leadsWith p (x :: as) :=
      leadsWith_append_of_mem p (x :: as) b c hmem hcp
    cases as with
    | nil =>
      rw [show (([x] : List Char) ++ b) = x :: b from rfl, countOccur_cons x b p,
        countOccur_cons x [] p, countOccur_nil]
      have hx : leadsWith p (x :: b) = leadsWith p [x] := hsplit
      rw [hx]
      omega
    | cons y t =>
      have hlast : lastElem (y :: t) = some c := h
      have hki := ih hlast
      rw [show ((x :: y :: t) ++ b) = x :: ((y :: t) ++ b) from rfl,
        countOccur_cons x ((y :: t) ++ b) p, countOccur_cons x (y :: t) p, hki]
      have hx : leadsWith p (x :: ((y :: t) ++ b)) = leadsWith p (x :: y :: t) := hsplit
      rw [hx]
      omega

/-- Occurrence counting distributes over an append whose right part starts
with a character missing from the pattern. -/
theorem countOccur_append_head (p b : List Char) (d : Char) (hd : b.head? = some d)
    (hdp : d ∉ p) :
    ∀ a : List Char, countOccur (a ++ b) p = countOccur a p + countOccur b p := by
  intro a
  induction a with
  | nil => rw [List.nil_append, countOccur_nil]; omega
  | cons x as ih =>
    have hsplit : leadsWith p ((x :: as) ++ b) = leadsWith p (x :: as) :=
      leadsWith_append_of_head p (x :: as) b d hd hdp
    rw [show ((x :: as) ++ b) = x :: (as ++ b) from rfl, countOccur_cons x (as ++ b) p,
      countOccur_cons x as p, ih]
    have hx : leadsWith p (x :: (as ++ b)) = leadsWith p (x :: as) := hsplit
    rw [hx]
    omega

/-- The result container adds no occurrence of a pattern free of `<` and
`>`: the rendered report contains such a pattern exactly as often as the
normalizer output does. -/
theorem render_count (t : String) (p : List Char) (hgp : '>' ∉ p) (hlp : '<' ∉ p)
    (hopen : countOccur resultBoxOpen.data p = 0)
    (hclose : countOccur resultBoxClose.data p = 0) :
    countOccur (renderResult t).data p = countOccur t.data p := by
  have hdata : (renderResult t).data = resultBoxOpen.data ++ (t.data ++ resultBoxClose.data) := by
    show (resultBoxOpen ++ t ++ resultBoxClose).data = _
    rw [String.data_append, String.data_append, List.append_assoc]
  rw [hdata,
    countOccur_append_last p (t.data ++ resultBoxClose.data) '>' hgp resultBoxOpen.data (by decide),
    countOccur_append_head p resultBoxClose.data '<' (by decide) hlp t.data, hopen, hclose]
  omega

/-- C2 counterexample: with the reformatter unavailable the flow renders
the raw model text unchanged inside the result container, so for the raw
text `"hello"` the rendered report contains the fixed section `Strengths`
zero times — not exactly once as claimed. -/
theorem nine_sections_counterexample :
    nineSections.length = 9 ∧ "Strengths" ∈ nineSections ∧
    renderResult (format_with_openai "" none "hello") =
      "<div class=\x27result-box\x27>hello</div>" ∧
    countOccur (renderResult (format_with_openai "" none "hello")).data "Strengths".data = 0 :=
  ⟨rfl, by decide, rfl, by decide⟩

/-- C2 (amended): the source enforces no section skeleton locally — the
nine fixed sections are only requested from the optional remote
reformatter.  The rendering wraps the normalizer output verbatim in the
result container, so each of the nine section titles occurs in the
rendered report exactly as often as in the normalizer output; with no
reformatting credential that output is the raw model text itself. -/
theorem render_section_occurrences (t : String) (sec : String) (hsec : sec ∈ nineSections) :
    format_with_openai "" none t = t ∧
    countOccur (renderResult t).data sec.data = countOccur t.data sec.data := by
  refine ⟨rfl, ?_⟩
  fin_cases hsec <;> exact render_count t _ (by decide) (by decide) (by decide) (by decide)

/-- Witness for C2's amended theorem at the raw text `"x"` and the section
`Strengths`. -/
theorem render_section_occurrences_witness :
    format_with_openai "" none "x" = "x" ∧
    countOccur (renderResult "x").data "Strengths".data = countOccur "x".data "Strengths".data :=
  render_section_occurrences "x" "Strengths" (by decide)

/-- C4: the streaming parser (1) silently skips blank lines, `:`-comment
lines, non-`data:` lines, empty payloads and payloads `json.loads`
rejects; (2) yields the delta text of an incremental-token event carrying
one; (3) on a terminal event yields its trailing text if any and ends the
sequence without reading further frames; (4) on an `error` event aborts
with the gateway-supplied message; and (5) on the spec's scenario —
deltas `"Hello"`, `" world"`, then a bare terminal frame — the aggregated
raw text is `"Hello world"`. -/
theorem stream_parser_behavior :
    (∀ decode (s : ChatState) raw rest,
      (frameData raw = none ∨ ∃ ds, frameData raw = some ds ∧ decode ds = none) →
      streamBody decode (raw :: rest) s = streamBody decode rest s) ∧
    (∀ decode (s : ChatState) raw rest ds fields e, frameData raw = some ds →
      decode ds = some (Json.obj fields) → jget (Json.obj fields) "event" = some (Json.str e) →
      e ∈ incrementalEvents → jtruthy (deltaOf (Json.obj fields)) = true →
      streamBody decode (raw :: rest) s =
        ⟨pyStr (deltaOf (Json.obj fields)) ::
            (streamBody decode rest (latch s (jget (Json.obj fields) "conversation_id"))).yields,
          (streamBody decode rest (latch s (jget (Json.obj fields) "conversation_id"))).state,
          (streamBody decode rest (latch s (jget (Json.obj fields) "conversation_id"))).outcome⟩) ∧
    (∀ decode (s : ChatState) raw rest ds fields e, frameData raw = some ds →
      decode ds = some (Json.obj fields) → jget (Json.obj fields) "event" = some (Json.str e) →
      e ∈ terminalEvents →
      streamBody decode (raw :: rest) s =
        ⟨if jtruthy (tailOf (Json.obj fields)) then [pyStr (tailOf (Json.obj fields))] else [],
          latch s (jget (Json.obj fields) "conversation_id"), .done⟩) ∧
    (∀ decode (s : ChatState) raw rest ds fields, frameData raw = some ds →
      decode ds = some (Json.obj fields) →
      jget (Json.obj fields) "event" = some (Json.str "error") →
      streamBody decode (raw :: rest) s =
        ⟨[], latch s (jget (Json.obj fields) "conversation_id"),
          .modelError (pyStr (errMsgOf (Json.obj fields)))⟩) ∧
    (streamBody helloDecode helloLines ⟨none⟩ = ⟨["Hello", " world"], ⟨none⟩, .done⟩ ∧
      strTrim (strJoin (streamBody helloDecode helloLines ⟨none⟩).yields) = "Hello world") := by
  refine ⟨?_, ?_, ?_, ?_, rfl, rfl⟩
  · intro decode s raw rest h
    rcases h with h | ⟨ds, hds, hdec⟩
    · simp [streamBody, streamStep, h]
    · simp [streamBody, streamStep, hds, hdec]
  · intro decode s raw rest ds fields e hds hdec hevt he hdelta
    simp [streamBody, streamStep, hds, hdec, hevt, he, hdelta]
  · intro decode s raw rest ds fields e hds hdec hevt he
    have hni : ¬ e ∈ incrementalEvents := by fin_cases he <;> decide
    simp [streamBody, streamStep, hds, hdec, hevt, hni, he]
  · intro decode s raw rest ds fields hds hdec hevt
    simp [streamBody, streamStep, hds, hdec, hevt, incrementalEvents, terminalEvents]

/-- Witness for C4 at a concrete skipped frame: the `:`-comment line
contributes nothing. -/
theorem stream_parser_behavior_witness :
    streamBody helloDecode (": ping" :: helloLines) ⟨none⟩ =
      streamBody helloDecode helloLines ⟨none⟩ :=
  stream_parser_behavior.1 helloDecode ⟨none⟩ ": ping" helloLines (Or.inl rfl)

/-- An established (truthy) conversation id is never overwritten by the
latch. -/
theorem latch_of_truthy (s : ChatState) (v : Option Json) (h : stateTruthy s = true) :
    latch s v = s := by
  unfold latch
  cases v with
  | none => rfl
  | some c => simp [h]

/-- With an established conversation id, no stream event changes the
session state. -/
theorem streamStep_state (decode : String → Option Json) (s : ChatState) (raw : String)
    (h : stateTruthy s = true) : stepState (streamStep decode s raw) = s := by
  have hl : ∀ v, latch s v = s := fun v => latch_of_truthy s v h
  cases hf : frameData raw with
  | none => simp [streamStep, hf, stepState]
  | some ds =>
    cases hd : decode ds with
    | none => simp [streamStep, hf, hd, stepState]
    | some evt =>
      cases evt with
      | obj fields =>
        simp only [streamStep, hf, hd, hl]
        cases he : jget (Json.obj fields) "event" with
        | none => simp [stepState]
        | some v =>
          cases v <;> (try (simp [stepState]; split_ifs <;> simp [stepState])) <;>
            simp [stepState]
      | null => simp [streamStep, hf, hd, stepState]
      | bool b => simp [streamStep, hf, hd, stepState]
      | num n => simp [streamStep, hf, hd, stepState]
      | str t => simp [streamStep, hf, hd, stepState]
      | arr l => simp [streamStep, hf, hd, stepState]

/-- With an established conversation id, the whole stream loop leaves the
session state unchanged. -/
theorem streamBody_state_preserved (decode : String → Option Json) :
    ∀ (lines : List String) (s : ChatState), stateTruthy s = true →
      (streamBody decode lines s).state = s := by
  intro lines
  induction lines with
  | nil => intro s _; rfl
  | cons raw rest ih =>
    intro s h
    have hst := streamStep_state decode s raw h
    cases hstep : streamStep decode s raw with
    | skip s1 =>
      rw [hstep] at hst
      simp only [stepState] at hst
      subst hst
      simp [streamBody, hstep, ih _ h]
    | yieldD d s1 =>
      rw [hstep] at hst
      simp only [stepState] at hst
      subst hst
      simp [streamBody, hstep, ih _ h]
    | stop tl s1 =>
      rw [hstep] at hst
      simp only [stepState] at hst
      subst hst
      simp [streamBody, hstep]
    | fail s1 o =>
      rw [hstep] at hst
      simp only [stepState] at hst
      subst hst
      simp [streamBody, hstep]

/-- C5: once a conversation id is established (a truthy id stored in the
session), every chat request body attaches exactly that id, no event
stream can overwrite or reset it, and the blocking call leaves it intact
too — only the explicit clear button (which bypasses these functions)
resets it. -/
theorem conversation_id_stable (c : Json) (s : ChatState)
    (hs : s.conversation_id = some c) (hc : jtruthy c = true) :
    (∀ mode query user files, (buildChatPayload mode query user s files).conversation_id = some c) ∧
    (∀ decode lines, (streamBody decode lines s).state.conversation_id = some c) ∧
    (∀ status body, (dify_blocking_chat s status body).1.conversation_id = some c) := by
  have ht : stateTruthy s = true := by simp [stateTruthy, hs, hc]
  refine ⟨?_, ?_, ?_⟩
  · intro mode query user files
    simp [buildChatPayload, ht, hs]
  · intro decode lines
    rw [streamBody_state_preserved decode lines s ht, hs]
  · intro status body
    unfold dify_blocking_chat
    split
    · exact hs
    · cases body with
      | obj fields =>
        cases hb : blockingConvVal (Json.obj fields) with
        | error e => simp [hb, hs]
        | ok conv => simp [hb, ht, hs]
      | null => exact hs
      | bool b => exact hs
      | num n => exact hs
      | str t => exact hs
      | arr l => exact hs

/-- Witness for C5 at a concrete established id `"c1"`. -/
theorem conversation_id_stable_witness :
    (buildChatPayload "streaming" "q" "u" ⟨some (Json.str "c1")⟩ none).conversation_id =
        some (Json.str "c1") ∧
    (streamBody (fun _ => none) ["data: x"] ⟨some (Json.str "c1")⟩).state.conversation_id =
        some (Json.str "c1") ∧
    (dify_blocking_chat ⟨some (Json.str "c1")⟩ 200
        (Json.obj [("answer", Json.str "hi")])).1.conversation_id = some (Json.str "c1") := by
  have h := conversation_id_stable (Json.str "c1") ⟨some (Json.str "c1")⟩ rfl (by decide)
  exact ⟨h.1 "streaming" "q" "u" none, h.2.1 (fun _ => none) ["data: x"],
    h.2.2 200 (Json.obj [("answer", Json.str "hi")])⟩

/-- A failed upload never creates a fingerprint-table entry: when the loop
stops with `uploadError` on fingerprint `fp`, the table it leaves behind
has no binding for `fp`. -/
theorem uploadLoop_fail_no_record {α : Type} [DecidableEq α] (hashF : List Nat → α)
    (guessType : String → Option String)
    (uploadResp : String → List Nat → String → Option (Nat × Json)) :
    ∀ (files : List FileIn) (fps : List (α × UploadedRec)) (m : String) (fp : α),
      (uploadLoop hashF guessType uploadResp files fps).outcome = .uploadError m fp →
      lookupFp (uploadLoop hashF guessType uploadResp files fps).fps fp = none := by
  intro files
  induction files with
  | nil => intro fps m fp h; exact absurd h (by simp [uploadLoop])
  | cons f rest ih =>
    intro fps m fp h
    by_cases hsize : f.content.length > sizeLimit
    · rw [uploadLoop, if_pos hsize] at h
      exact absurd h (by simp)
    · rw [uploadLoop, if_neg hsize] at h ⊢
      simp only at h ⊢
      cases hlk : lookupFp fps (hashF f.content) with
      | none =>
        simp only [hlk] at h ⊢
        cases hup : dify_upload_file (uploadResp f.name f.content
            (pyOrS f.mimeType (pyOrS (guessType f.name) "application/octet-stream"))) with
        | error e =>
          simp only [hup] at h ⊢
          injection h with h1 h2
          subst h2
          exact hlk
        | ok uid =>
          simp only [hup] at h ⊢
          exact ih _ m fp h
      | some rec0 =>
        simp only [hlk] at h ⊢
        exact ih _ m fp h

/-- A stream aborted by a model error makes the flow display the friendly
banner with the gateway message, skip the blocking fallback, store no
output, and keep whatever session state the stream left. -/
theorem startFlow_on_modelError (i : Fin 4) (user : String) (files : List FilePayload)
    (s : ChatState) (decode : String → Option Json) (eb : Json) (lines : List String)
    (bs : Nat) (bb : Json) (k : String) (o : Option (Nat × Json)) (m : String)
    (hm : (streamBody decode lines s).outcome = .modelError m) :
    startFlow i user files s decode 200 eb lines bs bb k o =
      ⟨buildChatPayload "streaming" (chooseQuery i) user s
          (if files.isEmpty then none else some files),
        false, some (friendlyErrorMsg, m), none, none, (streamBody decode lines s).state⟩ := by
  have h2 : dify_stream_chat decode 200 eb lines s = streamBody decode lines s := by
    unfold dify_stream_chat
    rw [if_neg (by omega)]
  simp only [startFlow, h2, hm]

/-- C3 counterexample theorem: starting from a session with no
conversation id, the failed flow ends with the error caught at the flow
boundary but with `conversation_id = some "c1"` still latched. -/
theorem failed_flow_state_counterexample :
    (startFlow ⟨0, by omega⟩ "u" [] ⟨none⟩ convErrDecode 200 Json.null convErrLines
        200 (Json.obj []) "" none).displayedError = some (friendlyErrorMsg, "boom") ∧
    (startFlow ⟨0, by omega⟩ "u" [] ⟨none⟩ convErrDecode 200 Json.null convErrLines
        200 (Json.obj []) "" none).finalState.conversation_id = some (Json.str "c1") ∧
    (startFlow ⟨0, by omega⟩ "u" [] ⟨none⟩ convErrDecode 200 Json.null convErrLines
        200 (Json.obj []) "" none).blockingCalled = false :=
  ⟨rfl, rfl, rfl⟩

/-- C3 (amended): a failing gateway call is caught at the flow boundary
and reported with the friendly banner plus the technical detail, with no
automatic retry (in particular the blocking fallback is not invoked) and
nothing stored as output; no upload record is created for a file whose
upload failed and the stored payload is untouched; however, a conversation
id latched from an event seen before the stream's error event remains in
the session state rather than being rolled back. -/
theorem flow_failure_handling :
    (∀ (i : Fin 4) user files (s : ChatState) decode eb lines bs bb k o m,
      (streamBody decode lines s).outcome = .modelError m →
      (startFlow i user files s decode 200 eb lines bs bb k o).displayedError =
          some (friendlyErrorMsg, m) ∧
      (startFlow i user files s decode 200 eb lines bs bb k o).blockingCalled = false ∧
      (startFlow i user files s decode 200 eb lines bs bb k o).lastOutput = none ∧
      (startFlow i user files s decode 200 eb lines bs bb k o).finalState =
          (streamBody decode lines s).state) ∧
    (∀ (α : Type) [DecidableEq α] (hashF : List Nat → α) guessType uploadResp files
        (s : UpState α) m fp,
      (processFiles hashF guessType uploadResp files s).outcome = .uploadError m fp →
      lookupFp (processFiles hashF guessType uploadResp files s).state.uploaded_fps fp = none ∧
      (processFiles hashF guessType uploadResp files s).state.uploaded_payload =
          s.uploaded_payload) := by
  constructor
  · intro i user files s decode eb lines bs bb k o m hm
    rw [startFlow_on_modelError i user files s decode eb lines bs bb k o m hm]
    exact ⟨rfl, rfl, rfl, rfl⟩
  · intro α inst hashF guessType uploadResp files s m fp h
    unfold processFiles at h ⊢
    by_cases hemp : files.isEmpty
    · rw [if_pos hemp] at h
      exact absurd h (by simp)
    · rw [if_neg hemp] at h ⊢
      simp only at h ⊢
      cases hout : (uploadLoop hashF guessType uploadResp files s.uploaded_fps).outcome with
      | ok => rw [hout] at h; simp at h
      | sizeError m0 => rw [hout] at h; simp at h
      | uploadError m0 fp0 =>
        rw [hout] at h
        simp only at h ⊢
        injection h with h1 h2
        subst h1
        subst h2
        exact ⟨uploadLoop_fail_no_record hashF guessType uploadResp files s.uploaded_fps m0 fp0
          hout, trivial⟩

/-- Witness for C3's amended theorem: the concrete failed stream above,
and a concrete failed upload (gateway returns HTTP 500 for a new file). -/
theorem flow_failure_handling_witness :
    (startFlow ⟨0, by omega⟩ "u" [] ⟨none⟩ convErrDecode 200 Json.null convErrLines
        200 (Json.obj []) "" none).blockingCalled = false ∧
    lookupFp (processFiles (fun l => l) (fun _ => none) (fun _ _ _ => some (500, Json.obj []))
        [⟨"deck.pdf", [1, 2, 3], some "application/pdf"⟩]
        ⟨[], []⟩).state.uploaded_fps [1, 2, 3] = none := by
  constructor
  · exact ((flow_failure_handling.1 ⟨0, by omega⟩ "u" [] ⟨none⟩ convErrDecode Json.null
      convErrLines 200 (Json.obj []) "" none "boom" (by rfl)).2.1)
  · exact (flow_failure_handling.2 (List Nat) (fun l => l) (fun _ => none)
      (fun _ _ _ => some (500, Json.obj []))
      [⟨"deck.pdf", [1, 2, 3], some "application/pdf"⟩] ⟨[], []⟩ _ _ (by rfl)).1

/-- A stopped-by-size loop owes its message to some oversized file of the
selection. -/
theorem uploadLoop_sizeError_named {α : Type} [DecidableEq α] (hashF : List Nat → α)
    (guessType : String → Option String)
    (uploadResp : String → List Nat → String → Option (Nat × Json)) :
    ∀ (files : List FileIn) (fps : List (α × UploadedRec)) (m : String),
      (uploadLoop hashF guessType uploadResp files fps).outcome = .sizeError m →
      ∃ f, f ∈ files ∧ f.content.length > sizeLimit ∧
        m = sizeErrorMsg f.name f.content.length := by
  intro files
  induction files with
  | nil => intro fps m h; exact absurd h (by simp [uploadLoop])
  | cons f rest ih =>
    intro fps m h
    by_cases hsize : f.content.length > sizeLimit
    · rw [uploadLoop, if_pos hsize] at h
      simp only at h
      injection h with h1
      exact ⟨f, List.mem_cons_self f rest, hsize, h1.symm⟩
    · rw [uploadLoop, if_neg hsize] at h
      simp only at h
      cases hlk : lookupFp fps (hashF f.content) with
      | none =>
        rw [hlk] at h
        simp only at h
        cases hup : dify_upload_file (uploadResp f.name f.content
            (pyOrS f.mimeType (pyOrS (guessType f.name) "application/octet-stream"))) with
        | error e =>
          rw [hup] at h
          simp only at h
          exact absurd h (by simp)
        | ok uid =>
          rw [hup] at h
          simp only at h
          obtain ⟨g, hg, hbig, hm⟩ := ih _ m h
          exact ⟨g, List.mem_cons_of_mem f hg, hbig, hm⟩
      | some rec0 =>
        rw [hlk] at h
        simp only at h
        obtain ⟨g, hg, hbig, hm⟩ := ih _ m h
        exact ⟨g, List.mem_cons_of_mem f hg, hbig, hm⟩

/-- Every upload call the loop sends is for a file that passed the size
check. -/
theorem uploadLoop_log_size {α : Type} [DecidableEq α] (hashF : List Nat → α)
    (guessType : String → Option String)
    (uploadResp : String → List Nat → String → Option (Nat × Json)) :
    ∀ (files : List FileIn) (fps : List (α × UploadedRec)) (call : UploadCall),
      call ∈ (uploadLoop hashF guessType uploadResp files fps).log →
      call.content.length ≤ sizeLimit := by
  intro files
  induction files with
  | nil => intro fps call h; simp [uploadLoop] at h
  | cons f rest ih =>
    intro fps call h
    by_cases hsize : f.content.length > sizeLimit
    · rw [uploadLoop, if_pos hsize] at h
      simp at h
    · rw [uploadLoop, if_neg hsize] at h
      simp only at h
      cases hlk : lookupFp fps (hashF f.content) with
      | none =>
        rw [hlk] at h
        simp only at h
        cases hup : dify_upload_file (uploadResp f.name f.content
            (pyOrS f.mimeType (pyOrS (guessType f.name) "application/octet-stream"))) with
        | error e =>
          rw [hup] at h
          simp only [List.mem_singleton] at h
          subst h
          simpa using Nat.le_of_not_lt hsize
        | ok uid =>
          rw [hup] at h
          simp only [List.mem_cons] at h
          rcases h with rfl | h
          · simpa using Nat.le_of_not_lt hsize
          · exact ih _ call h
      | some rec0 =>
        rw [hlk] at h
        simp only at h
        exact ih _ call h

/-- The selection-change flow reports the loop's outcome unchanged. -/
theorem processFiles_outcome {α : Type} [DecidableEq α] (hashF : List Nat → α)
    (guessType : String → Option String)
    (uploadResp : String → List Nat → String → Option (Nat × Json))
    (files : List FileIn) (s : UpState α) (h : files.isEmpty = false) :
    (processFiles hashF guessType uploadResp files s).outcome =
      (uploadLoop hashF guessType uploadResp files s.uploaded_fps).outcome := by
  unfold processFiles
  rw [if_neg (by simp [h])]
  simp only
  cases hout : (uploadLoop hashF guessType uploadResp files s.uploaded_fps).outcome <;> rfl

/-- The selection-change flow sends exactly the loop's upload calls. -/
theorem processFiles_log {α : Type} [DecidableEq α] (hashF : List Nat → α)
    (guessType : String → Option String)
    (uploadResp : String → List Nat → String → Option (Nat × Json))
    (files : List FileIn) (s : UpState α) (h : files.isEmpty = false) :
    (processFiles hashF guessType uploadResp files s).log =
      (uploadLoop hashF guessType uploadResp files s.uploaded_fps).log := by
  unfold processFiles
  rw [if_neg (by simp [h])]
  simp only
  cases hout : (uploadLoop hashF guessType uploadResp files s.uploaded_fps).outcome <;> rfl

/-- C8: a first file one byte (or more) over 15 MB aborts the whole batch
immediately — state untouched, no upload call made, message naming the
file and its measured size; a file of exactly 15 MB is never
size-rejected; no upload call is ever sent for an oversized file; and a
size-violation stop always names an oversized file of the selection with
its measured size. -/
theorem size_limit_enforcement :
    (∀ (α : Type) [DecidableEq α] (hashF : List Nat → α) guessType uploadResp name content
        mime rest (s : UpState α), content.length > sizeLimit →
      processFiles hashF guessType uploadResp (⟨name, content, mime⟩ :: rest) s =
        ⟨s, [], .sizeError (sizeErrorMsg name content.length)⟩) ∧
    (∀ (α : Type) [DecidableEq α] (hashF : List Nat → α) guessType uploadResp name content
        mime (s : UpState α) m, content.length = sizeLimit →
      (processFiles hashF guessType uploadResp [⟨name, content, mime⟩] s).outcome ≠
        .sizeError m) ∧
    (∀ (α : Type) [DecidableEq α] (hashF : List Nat → α) guessType uploadResp files
        (s : UpState α) call, call ∈ (processFiles hashF guessType uploadResp files s).log →
      call.content.length ≤ sizeLimit) ∧
    (∀ (α : Type) [DecidableEq α] (hashF : List Nat → α) guessType uploadResp files
        (s : UpState α) m, (processFiles hashF guessType uploadResp files s).outcome =
          .sizeError m →
      ∃ f, f ∈ files ∧ f.content.length > sizeLimit ∧
        m = sizeErrorMsg f.name f.content.length) := by
  refine ⟨?_, ?_, ?_, ?_⟩
  · intro α inst hashF guessType uploadResp name content mime rest s hbig
    have hl : uploadLoop hashF guessType uploadResp (⟨name, content, mime⟩ :: rest)
        s.uploaded_fps =
        ⟨s.uploaded_fps, [], [], [], .sizeError (sizeErrorMsg name content.length)⟩ := by
      rw [uploadLoop, if_pos hbig]
    unfold processFiles
    rw [if_neg (by simp)]
    simp only [hl]
  · intro α inst hashF guessType uploadResp name content mime s m hlen hcon
    rw [processFiles_outcome hashF guessType uploadResp _ s (by simp)] at hcon
    obtain ⟨f, hf, hbig, -⟩ :=
      uploadLoop_sizeError_named hashF guessType uploadResp _ s.uploaded_fps m hcon
    rw [List.mem_singleton] at hf
    subst hf
    simp only at hbig
    omega
  · intro α inst hashF guessType uploadResp files s call hcall
    cases hemp : files.isEmpty with
    | true =>
      rw [List.isEmpty_iff] at hemp
      subst hemp
      simp [processFiles] at hcall
    | false =>
      rw [processFiles_log hashF guessType uploadResp files s hemp] at hcall
      exact uploadLoop_log_size hashF guessType uploadResp files s.uploaded_fps call hcall
  · intro α inst hashF guessType uploadResp files s m hout
    cases hemp : files.isEmpty with
    | true =>
      rw [List.isEmpty_iff] at hemp
      subst hemp
      simp [processFiles] at hout
    | false =>
      rw [processFiles_outcome hashF guessType uploadResp files s hemp] at hout
      exact uploadLoop_sizeError_named hashF guessType uploadResp files s.uploaded_fps m hout

/-- Witness for C8: a 15 MB + 1 byte file is rejected with the message
naming it and its size; a file of exactly 15 MB is not size-rejected. -/
theorem size_limit_enforcement_witness :
    (processFiles (fun l => l) (fun _ => none) (fun _ _ _ => none)
        [⟨"big.pdf", List.replicate (sizeLimit + 1) 0, some "application/pdf"⟩]
        (⟨[], []⟩ : UpState (List Nat))).outcome =
      .sizeError (sizeErrorMsg "big.pdf" (sizeLimit + 1)) ∧
    (processFiles (fun l => l) (fun _ => none) (fun _ _ _ => none)
        [⟨"ok.pdf", List.replicate sizeLimit 0, some "application/pdf"⟩]
        (⟨[], []⟩ : UpState (List Nat))).outcome ≠ .sizeError "x" := by
  constructor
  · rw [size_limit_enforcement.1 (List Nat) (fun l => l) (fun _ => none) (fun _ _ _ => none)
      "big.pdf" (List.replicate (sizeLimit + 1) 0) (some "application/pdf") []
      (⟨[], []⟩ : UpState (List Nat)) (by simp)]
    simp
  · exact size_limit_enforcement.2.1 (List Nat) (fun l => l) (fun _ => none) (fun _ _ _ => none)
      "ok.pdf" (List.replicate sizeLimit 0) (some "application/pdf")
      (⟨[], []⟩ : UpState (List Nat)) "x" (by simp)

/-- Loop step: an oversized head file stops everything at once. -/
theorem uploadLoop_cons_size {α : Type} [DecidableEq α] (hashF : List Nat → α)
    (guessType : String → Option String)
    (uploadResp : String → List Nat → String → Option (Nat × Json))
    (f : FileIn) (rest : List FileIn) (fps : List (α × UploadedRec))
    (hsize : f.content.length > sizeLimit) :
    uploadLoop hashF guessType uploadResp (f :: rest) fps =
      ⟨fps, [], [], [], .sizeError (sizeErrorMsg f.name f.content.length)⟩ := by
  rw [uploadLoop, if_pos hsize]

/-- Loop step: a head file whose fingerprint is already recorded is not
re-uploaded; its stored record feeds the payload. -/
theorem uploadLoop_cons_dedup {α : Type} [DecidableEq α] (hashF : List Nat → α)
    (guessType : String → Option String)
    (uploadResp : String → List Nat → String → Option (Nat × Json))
    (f : FileIn) (rest : List FileIn) (fps : List (α × UploadedRec)) (rec0 : UploadedRec)
    (hsize : ¬ f.content.length > sizeLimit)
    (hlk : lookupFp fps (hashF f.content) = some rec0) :
    uploadLoop hashF guessType uploadResp (f :: rest) fps =
      ⟨(uploadLoop hashF guessType uploadResp rest fps).fps,
        hashF f.content :: (uploadLoop hashF guessType uploadResp rest fps).cur,
        ⟨rec0.type, "local_file", rec0.id⟩ ::
          (uploadLoop hashF guessType uploadResp rest fps).payload,
        (uploadLoop hashF guessType uploadResp rest fps).log,
        (uploadLoop hashF guessType uploadResp rest fps).outcome⟩ := by
  rw [uploadLoop, if_neg hsize]
  simp only [hlk]

/-- Loop step: a fresh fingerprint whose upload fails stops the batch,
logging that one call and recording nothing. -/
theorem uploadLoop_cons_new_fail {α : Type} [DecidableEq α] (hashF : List Nat → α)
    (guessType : String → Option String)
    (uploadResp : String → List Nat → String → Option (Nat × Json))
    (f : FileIn) (rest : List FileIn) (fps : List (α × UploadedRec)) (e : String)
    (hsize : ¬ f.content.length > sizeLimit)
    (hlk : lookupFp fps (hashF f.content) = none)
    (hup : dify_upload_file (uploadResp f.name f.content (loopMime guessType f)) =
      .error e) :
    uploadLoop hashF guessType uploadResp (f :: rest) fps =
      ⟨fps, [hashF f.content], [], [loopCall guessType f],
        .uploadError (uploadErrorDisplay e) (hashF f.content)⟩ := by
  rw [uploadLoop, if_neg hsize]
  unfold loopMime at hup
  simp only [hlk, hup, loopCall, loopMime]

/-- Loop step: a fresh fingerprint whose upload succeeds is recorded and
the loop continues on the grown table. -/
theorem uploadLoop_cons_new_ok {α : Type} [DecidableEq α] (hashF : List Nat → α)
    (guessType : String → Option String)
    (uploadResp : String → List Nat → String → Option (Nat × Json))
    (f : FileIn) (rest : List FileIn) (fps : List (α × UploadedRec)) (uid : Json)
    (hsize : ¬ f.content.length > sizeLimit)
    (hlk : lookupFp fps (hashF f.content) = none)
    (hup : dify_upload_file (uploadResp f.name f.content (loopMime guessType f)) = .ok uid) :
    uploadLoop hashF guessType uploadResp (f :: rest) fps =
      ⟨(uploadLoop hashF guessType uploadResp rest
          (fps ++ [(hashF f.content, loopRec guessType f uid)])).fps,
        hashF f.content :: (uploadLoop hashF guessType uploadResp rest
          (fps ++ [(hashF f.content, loopRec guessType f uid)])).cur,
        ⟨(loopRec guessType f uid).type, "local_file", (loopRec guessType f uid).id⟩ ::
          (uploadLoop hashF guessType uploadResp rest
            (fps ++ [(hashF f.content, loopRec guessType f uid)])).payload,
        loopCall guessType f :: (uploadLoop hashF guessType uploadResp rest
          (fps ++ [(hashF f.content, loopRec guessType f uid)])).log,
        (uploadLoop hashF guessType uploadResp rest
          (fps ++ [(hashF f.content, loopRec guessType f uid)])).outcome⟩ := by
  rw [uploadLoop, if_neg hsize]
  unfold loopMime at hup
  simp only [hlk, hup, loopCall, loopRec, loopMime]

/-- A binding survives appending entries on the right. -/
theorem lookupFp_append_some {α : Type} [DecidableEq α] (l l' : List (α × UploadedRec))
    (fp : α) (r : UploadedRec) (h : lookupFp l fp = some r) : lookupFp (l ++ l') fp = some r := by
  induction l with
  | nil => cases h
  | cons kv t ih =>
    obtain ⟨k, v⟩ := kv
    by_cases hk : k = fp
    · simpa [lookupFp, hk] using by simpa [lookupFp, hk] using h
    · rw [List.cons_append]
      simp only [lookupFp, if_neg hk] at h ⊢
      exact ih h

/-- Appending a differently-keyed entry cannot create a binding. -/
theorem lookupFp_append_none {α : Type} [DecidableEq α] (l : List (α × UploadedRec))
    (k fp : α) (v : UploadedRec) (h : lookupFp l fp = none) (hk : k ≠ fp) :
    lookupFp (l ++ [(k, v)]) fp = none := by
  induction l with
  | nil => simp [lookupFp, hk]
  | cons kv t ih =>
    obtain ⟨k0, v0⟩ := kv
    by_cases hk0 : k0 = fp
    · simp [lookupFp, hk0] at h
    · rw [List.cons_append]
      simp only [lookupFp, if_neg hk0] at h ⊢
      exact ih h

/-- Appending a fresh binding makes it found. -/
theorem lookupFp_append_self {α : Type} [DecidableEq α] (l : List (α × UploadedRec))
    (fp : α) (v : UploadedRec) (h : lookupFp l fp = none) :
    lookupFp (l ++ [(fp, v)]) fp = some v := by
  induction l with
  | nil => simp [lookupFp]
  | cons kv t ih =>
    obtain ⟨k0, v0⟩ := kv
    by_cases hk0 : k0 = fp
    · simp [lookupFp, hk0] at h
    · rw [List.cons_append]
      simp only [lookupFp, if_neg hk0] at h ⊢
      exact ih h

/-- Eviction by a key set containing `fp` does not change `fp`'s binding. -/
theorem lookupFp_filter_mem {α : Type} [DecidableEq α] (cur : List α) (fp : α) (h : fp ∈ cur) :
    ∀ l : List (α × UploadedRec),
      lookupFp (l.filter (fun kv => kv.1 ∈ cur)) fp = lookupFp l fp := by
  intro l
  induction l with
  | nil => rfl
  | cons kv t ih =>
    obtain ⟨k, v⟩ := kv
    by_cases hkc : k ∈ cur
    · rw [List.filter_cons, if_pos (by simpa using hkc)]
      by_cases hk : k = fp
      · simp [lookupFp, hk]
      · simp only [lookupFp, if_neg hk]
        exact ih
    · have hkfp : k ≠ fp := fun he => hkc (he ▸ h)
      rw [List.filter_cons, if_neg (by simpa using hkc)]
      simp only [lookupFp, if_neg hkfp]
      exact ih

/-- `countFp` over an append. -/
theorem countFp_append {α : Type} [DecidableEq α] (hashF : List Nat → α) (fp : α)
    (l1 l2 : List UploadCall) :
    countFp hashF fp (l1 ++ l2) = countFp hashF fp l1 + countFp hashF fp l2 := by
  simp [countFp, List.countP_append]

/-- With an injective fingerprint function, counting calls by content and
by fingerprint agree. -/
theorem countContent_eq_countFp {α : Type} [DecidableEq α] (hashF : List Nat → α)
    (hinj : ∀ x y, hashF x = hashF y → x = y) (c : List Nat) (log : List UploadCall) :
    countContent c log = countFp hashF (hashF c) log := by
  unfold countContent countFp
  induction log with
  | nil => rfl
  | cons e t ih =>
    simp only [List.countP_cons, ih]
    have : (e.content = c) ↔ (hashF e.content = hashF c) :=
      ⟨fun h => congrArg hashF h, fun h => hinj _ _ h⟩
    rw [decide_eq_decide.mpr this]

/-- The loop never uploads a fingerprint already recorded at entry. -/
theorem uploadLoop_no_call_if_present {α : Type} [DecidableEq α] (hashF : List Nat → α)
    (guessType : String → Option String)
    (uploadResp : String → List Nat → String → Option (Nat × Json)) :
    ∀ (files : List FileIn) (fps : List (α × UploadedRec)) (fp : α),
      lookupFp fps fp ≠ none →
      countFp hashF fp (uploadLoop hashF guessType uploadResp files fps).log = 0 := by
  intro files
  induction files with
  | nil => intro fps fp _; simp [uploadLoop, countFp]
  | cons f rest ih =>
    intro fps fp hpres
    by_cases hsize : f.content.length > sizeLimit
    · rw [uploadLoop, if_pos hsize]
      simp [countFp]
    · rw [uploadLoop, if_neg hsize]
      simp only
      cases hlk : lookupFp fps (hashF f.content) with
      | none =>
        have hne : hashF f.content ≠ fp := fun he => hpres (he ▸ hlk)
        cases hup : dify_upload_file (uploadResp f.name f.content
            (pyOrS f.mimeType (pyOrS (guessType f.name) "application/octet-stream"))) with
        | error e => simp [countFp, List.countP_cons, hne]
        | ok uid =>
          simp only [countFp, List.countP_cons]
          have hpres1 : lookupFp (fps ++ [(hashF f.content,
              (⟨uid, _infer_file_type (pyOrS f.mimeType (pyOrS (guessType f.name)
                "application/octet-stream")), f.name⟩ : UploadedRec))]) fp ≠ none := by
            cases hl0 : lookupFp fps fp with
            | none => exact absurd hl0 hpres
            | some r =>
              rw [lookupFp_append_some fps _ fp r hl0]
              exact fun hx => Option.noConfusion hx
          have := ih _ fp hpres1
          simp only [countFp] at this
          simp [this, hne]
      | some rec0 =>
        exact ih fps fp hpres

/-- In a completed loop, a fingerprint unrecorded at entry but carried by
one of the selected files is uploaded exactly once. -/
theorem uploadLoop_ok_one_call {α : Type} [DecidableEq α] (hashF : List Nat → α)
    (guessType : String → Option String)
    (uploadResp : String → List Nat → String → Option (Nat × Json)) :
    ∀ (files : List FileIn) (fps : List (α × UploadedRec)) (fp : α),
      (uploadLoop hashF guessType uploadResp files fps).outcome = .ok →
      lookupFp fps fp = none →
      (∃ f, f ∈ files ∧ hashF f.content = fp) →
      countFp hashF fp (uploadLoop hashF guessType uploadResp files fps).log = 1 := by
  intro files
  induction files with
  | nil =>
    intro fps fp _ _ hex
    rcases hex with ⟨f, hf, _⟩
    simp at hf
  | cons f rest ih =>
    intro fps fp hok hnone hex
    by_cases hsize : f.content.length > sizeLimit
    · rw [uploadLoop_cons_size hashF guessType uploadResp f rest fps hsize] at hok
      exact absurd hok (by simp)
    · cases hlk : lookupFp fps (hashF f.content) with
      | none =>
        cases hup : dify_upload_file (uploadResp f.name f.content (loopMime guessType f)) with
        | error e =>
          rw [uploadLoop_cons_new_fail hashF guessType uploadResp f rest fps e hsize hlk hup]
            at hok
          exact absurd hok (by simp)
        | ok uid =>
          rw [uploadLoop_cons_new_ok hashF guessType uploadResp f rest fps uid hsize hlk hup]
            at hok ⊢
          simp only at hok ⊢
          by_cases hfp : hashF f.content = fp
          · subst hfp
            have hpres1 : lookupFp (fps ++ [(hashF f.content, loopRec guessType f uid)])
                (hashF f.content) ≠ none := by
              rw [lookupFp_append_self fps _ _ hnone]
              exact fun hx => Option.noConfusion hx
            have h0 := uploadLoop_no_call_if_present hashF guessType uploadResp rest _
              (hashF f.content) hpres1
            simp only [countFp] at h0 ⊢
            rw [List.countP_cons, h0]
            simp [loopCall]
          · rcases hex with ⟨g, hg, hgfp⟩
            rcases List.mem_cons.mp hg with rfl | hgrest
            · exact absurd hgfp hfp
            · have hnone1 : lookupFp (fps ++ [(hashF f.content, loopRec guessType f uid)])
                  fp = none :=
                lookupFp_append_none fps _ fp _ hnone hfp
              have h1 := ih _ fp hok hnone1 ⟨g, hgrest, hgfp⟩
              simp only [countFp] at h1 ⊢
              rw [List.countP_cons, h1]
              simp [loopCall, hfp]
      | some rec0 =>
        rw [uploadLoop_cons_dedup hashF guessType uploadResp f rest fps rec0 hsize hlk]
          at hok ⊢
        simp only at hok ⊢
        rcases hex with ⟨g, hg, hgfp⟩
        rcases List.mem_cons.mp hg with rfl | hgrest
        · rw [hgfp] at hlk
          rw [hlk] at hnone
          cases hnone
        · exact ih fps fp hok hnone ⟨g, hgrest, hgfp⟩

/-- A binding present at loop entry is still present (unchanged) at exit. -/
theorem uploadLoop_fps_mono {α : Type} [DecidableEq α] (hashF : List Nat → α)
    (guessType : String → Option String)
    (uploadResp : String → List Nat → String → Option (Nat × Json)) :
    ∀ (files : List FileIn) (fps : List (α × UploadedRec)) (fp : α) (r : UploadedRec),
      lookupFp fps fp = some r →
      lookupFp (uploadLoop hashF guessType uploadResp files fps).fps fp = some r := by
  intro files
  induction files with
  | nil => intro fps fp r h; exact h
  | cons f rest ih =>
    intro fps fp r h
    by_cases hsize : f.content.length > sizeLimit
    · rw [uploadLoop, if_pos hsize]
      exact h
    · rw [uploadLoop, if_neg hsize]
      simp only
      cases hlk : lookupFp fps (hashF f.content) with
      | none =>
        cases hup : dify_upload_file (uploadResp f.name f.content
            (pyOrS f.mimeType (pyOrS (guessType f.name) "application/octet-stream"))) with
        | error e => exact h
        | ok uid => exact ih _ fp r (lookupFp_append_some fps _ fp r h)
      | some rec0 => exact ih fps fp r h

/-- After a completed loop, every selected file's fingerprint is recorded. -/
theorem uploadLoop_ok_presence {α : Type} [DecidableEq α] (hashF : List Nat → α)
    (guessType : String → Option String)
    (uploadResp : String → List Nat → String → Option (Nat × Json)) :
    ∀ (files : List FileIn) (fps : List (α × UploadedRec)) (f : FileIn), f ∈ files →
      (uploadLoop hashF guessType uploadResp files fps).outcome = .ok →
      lookupFp (uploadLoop hashF guessType uploadResp files fps).fps (hashF f.content) ≠
        none := by
  intro files
  induction files with
  | nil => intro fps f hf; simp at hf
  | cons g rest ih =>
    intro fps f hf hok
    by_cases hsize : g.content.length > sizeLimit
    · rw [uploadLoop_cons_size hashF guessType uploadResp g rest fps hsize] at hok
      exact absurd hok (by simp)
    · cases hlk : lookupFp fps (hashF g.content) with
      | none =>
        cases hup : dify_upload_file (uploadResp g.name g.content (loopMime guessType g)) with
        | error e =>
          rw [uploadLoop_cons_new_fail hashF guessType uploadResp g rest fps e hsize hlk hup]
            at hok
          exact absurd hok (by simp)
        | ok uid =>
          rw [uploadLoop_cons_new_ok hashF guessType uploadResp g rest fps uid hsize hlk hup]
            at hok ⊢
          simp only at hok ⊢
          rcases List.mem_cons.mp hf with rfl | hfrest
          · rw [uploadLoop_fps_mono hashF guessType uploadResp rest _ (hashF f.content) _
              (lookupFp_append_self fps (hashF f.content) _ hlk)]
            exact fun hx => Option.noConfusion hx
          · exact ih _ f hfrest hok
      | some rec0 =>
        rw [uploadLoop_cons_dedup hashF guessType uploadResp g rest fps rec0 hsize hlk]
          at hok ⊢
        simp only at hok ⊢
        rcases List.mem_cons.mp hf with rfl | hfrest
        · rw [uploadLoop_fps_mono hashF guessType uploadResp rest fps (hashF f.content) rec0 hlk]
          exact fun hx => Option.noConfusion hx
        · exact ih fps f hfrest hok

/-- In a completed loop, `current_fps` is exactly the selection's
fingerprints in order. -/
theorem uploadLoop_ok_cur {α : Type} [DecidableEq α] (hashF : List Nat → α)
    (guessType : String → Option String)
    (uploadResp : String → List Nat → String → Option (Nat × Json)) :
    ∀ (files : List FileIn) (fps : List (α × UploadedRec)),
      (uploadLoop hashF guessType uploadResp files fps).outcome = .ok →
      (uploadLoop hashF guessType uploadResp files fps).cur =
        files.map (fun f => hashF f.content) := by
  intro files
  induction files with
  | nil => intro fps _; rfl
  | cons f rest ih =>
    intro fps hok
    by_cases hsize : f.content.length > sizeLimit
    · rw [uploadLoop_cons_size hashF guessType uploadResp f rest fps hsize] at hok
      exact absurd hok (by simp)
    · cases hlk : lookupFp fps (hashF f.content) with
      | none =>
        cases hup : dify_upload_file (uploadResp f.name f.content (loopMime guessType f)) with
        | error e =>
          rw [uploadLoop_cons_new_fail hashF guessType uploadResp f rest fps e hsize hlk hup]
            at hok
          exact absurd hok (by simp)
        | ok uid =>
          rw [uploadLoop_cons_new_ok hashF guessType uploadResp f rest fps uid hsize hlk hup]
            at hok ⊢
          simp only at hok ⊢
          rw [ih _ hok]
          rfl
      | some rec0 =>
        rw [uploadLoop_cons_dedup hashF guessType uploadResp f rest fps rec0 hsize hlk]
          at hok ⊢
        simp only at hok ⊢
        rw [ih fps hok]
        rfl

/-- After a successful selection-change run, every selected file's
fingerprint is still recorded (the eviction keeps exactly the current
selection). -/
theorem processFiles_ok_presence {α : Type} [DecidableEq α] (hashF : List Nat → α)
    (guessType : String → Option String)
    (uploadResp : String → List Nat → String → Option (Nat × Json))
    (files : List FileIn) (s : UpState α) (f : FileIn) (hf : f ∈ files)
    (hok : (processFiles hashF guessType uploadResp files s).outcome = .ok) :
    lookupFp (processFiles hashF guessType uploadResp files s).state.uploaded_fps
      (hashF f.content) ≠ none := by
  have hemp : files.isEmpty = false := by
    cases files with
    | nil => simp at hf
    | cons a t => rfl
  have hok' : (uploadLoop hashF guessType uploadResp files s.uploaded_fps).outcome = .ok := by
    rw [← processFiles_outcome hashF guessType uploadResp files s hemp]
    exact hok
  unfold processFiles
  rw [if_neg (by simp [hemp])]
  simp only
  cases hout : (uploadLoop hashF guessType uploadResp files s.uploaded_fps).outcome with
  | ok =>
    simp only
    rw [lookupFp_filter_mem _ (hashF f.content) (by
      rw [uploadLoop_ok_cur hashF guessType uploadResp files s.uploaded_fps hok']
      exact List.mem_map_of_mem _ hf)]
    exact uploadLoop_ok_presence hashF guessType uploadResp files s.uploaded_fps f hf hok'
  | sizeError m => rw [hout] at hok'; cases hok'
  | uploadError m fp => rw [hout] at hok'; cases hok'

/-- C7: (i) no upload call is ever sent for a fingerprint already in the
upload record set, and (ii) selecting a file with the same byte content
(under any name) in two successive selection changes, the first of which
completes, produces exactly one upload call for that content in total —
assuming the fingerprint function is injective, as a cryptographic
content hash is taken to be. -/
theorem upload_dedup :
    (∀ (α : Type) [DecidableEq α] (hashF : List Nat → α) guessType uploadResp files
        (s : UpState α) fp, lookupFp s.uploaded_fps fp ≠ none →
      countFp hashF fp (processFiles hashF guessType uploadResp files s).log = 0) ∧
    (∀ (α : Type) [DecidableEq α] (hashF : List Nat → α),
      (∀ x y, hashF x = hashF y → x = y) →
      ∀ guessType uploadResp (files1 files2 : List FileIn) (s : UpState α)
        (c : List Nat) name1 mime1,
      (⟨name1, c, mime1⟩ : FileIn) ∈ files1 →
      lookupFp s.uploaded_fps (hashF c) = none →
      (processFiles hashF guessType uploadResp files1 s).outcome = .ok →
      countContent c ((processFiles hashF guessType uploadResp files1 s).log ++
        (processFiles hashF guessType uploadResp files2
          (processFiles hashF guessType uploadResp files1 s).state).log) = 1) := by
  constructor
  · intro α inst hashF guessType uploadResp files s fp hpres
    cases hemp : files.isEmpty with
    | true =>
      rw [List.isEmpty_iff] at hemp
      subst hemp
      simp [processFiles, countFp]
    | false =>
      rw [processFiles_log hashF guessType uploadResp files s hemp]
      exact uploadLoop_no_call_if_present hashF guessType uploadResp files s.uploaded_fps fp hpres
  · intro α inst hashF hinj guessType uploadResp files1 files2 s c name1 mime1 hmem hnone hok
    have hemp1 : files1.isEmpty = false := by
      cases files1 with
      | nil => simp at hmem
      | cons a t => rfl
    have hok1 : (uploadLoop hashF guessType uploadResp files1 s.uploaded_fps).outcome = .ok := by
      rw [← processFiles_outcome hashF guessType uploadResp files1 s hemp1]
      exact hok
    have hcount1 : countFp hashF (hashF c)
        (uploadLoop hashF guessType uploadResp files1 s.uploaded_fps).log = 1 :=
      uploadLoop_ok_one_call hashF guessType uploadResp files1 s.uploaded_fps (hashF c) hok1
        hnone ⟨⟨name1, c, mime1⟩, hmem, rfl⟩
    have hpres : lookupFp
        (processFiles hashF guessType uploadResp files1 s).state.uploaded_fps (hashF c) ≠
          none :=
      processFiles_ok_presence hashF guessType uploadResp files1 s ⟨name1, c, mime1⟩ hmem hok
    have hcount2 : countFp hashF (hashF c)
        (processFiles hashF guessType uploadResp files2
          (processFiles hashF guessType uploadResp files1 s).state).log = 0 := by
      cases hemp2 : files2.isEmpty with
      | true =>
        rw [List.isEmpty_iff] at hemp2
        subst hemp2
        simp [processFiles, countFp]
      | false =>
        rw [processFiles_log hashF guessType uploadResp files2 _ hemp2]
        exact uploadLoop_no_call_if_present hashF guessType uploadResp files2 _ (hashF c) hpres
    rw [countContent_eq_countFp hashF hinj, countFp_append,
      processFiles_log hashF guessType uploadResp files1 s hemp1, hcount1, hcount2]

/-- Witness for C7: the same one-byte content `[7]`, first as `a.pdf`,
then reselected as `b.pdf`; the combined logs show exactly one upload. -/
theorem upload_dedup_witness :
    countContent [7]
      ((processFiles (fun l => l) (fun _ => none)
          (fun _ _ _ => some (200, Json.obj [("id", Json.str "fid")]))
          [⟨"a.pdf", [7], some "application/pdf"⟩] (⟨[], []⟩ : UpState (List Nat))).log ++
        (processFiles (fun l => l) (fun _ => none)
          (fun _ _ _ => some (200, Json.obj [("id", Json.str "fid")]))
          [⟨"b.pdf", [7], some "application/pdf"⟩]
          (processFiles (fun l => l) (fun _ => none)
            (fun _ _ _ => some (200, Json.obj [("id", Json.str "fid")]))
            [⟨"a.pdf", [7], some "application/pdf"⟩]
            (⟨[], []⟩ : UpState (List Nat))).state).log) = 1 :=
  upload_dedup.2 (List Nat) (fun l => l) (fun _ _ h => h) (fun _ => none)
    (fun _ _ _ => some (200, Json.obj [("id", Json.str "fid")]))
    [⟨"a.pdf", [7], some "application/pdf"⟩] [⟨"b.pdf", [7], some "application/pdf"⟩]
    ⟨[], []⟩ [7] "a.pdf" (some "application/pdf") (by simp) rfl (by rfl)

/-- Unfolding the message scan one step. -/
theorem msgsLoop_cons (m : Json) (rest : List Json) :
    msgsLoop (m :: rest) =
      match pick m with
      | some a => .ok (some a)
      | none =>
        match m with
        | .obj _ =>
          match pick (jgetD m "data" (Json.obj [])) with
          | some a => .ok (some a)
          | none => msgsLoop rest
        | _ => .error "AttributeError" := rfl

/-- A message with no usable text is not picked directly. -/
theorem pick_none_of_usableText_none (m : Json) (h : usableText m = none) : pick m = none := by
  cases hp : pick m with
  | none => rfl
  | some a =>
    unfold usableText at h
    rw [hp] at h
    cases h

/-- Messages without usable text are scanned over. -/
theorem msgsLoop_skip_all :
    ∀ l : List Json, (∀ m' ∈ l, (∃ fl, m' = .obj fl) ∧ usableText m' = none) →
      ∀ rest, msgsLoop (l ++ rest) = msgsLoop rest := by
  intro l
  induction l with
  | nil => intro _ rest; rfl
  | cons m t ih =>
    intro h rest
    obtain ⟨⟨fl, hfl⟩, hnone⟩ := h m (List.mem_cons_self m t)
    have hp : pick m = none := pick_none_of_usableText_none m hnone
    have hinner : pick (jgetD m "data" (Json.obj [])) = none := by
      unfold usableText at hnone
      rw [hp] at hnone
      subst hfl
      exact hnone
    subst hfl
    rw [List.cons_append, msgsLoop_cons]
    simp only [hp, hinner]
    exact ih (fun m' hm' => h m' (List.mem_cons_of_mem _ hm')) rest

/-- The scan stops at a message with usable text. -/
theorem msgsLoop_head_usable (m : Json) (a : String) (h : usableText m = some a) :
    ∀ rest, msgsLoop (m :: rest) = .ok (some a) := by
  intro rest
  unfold usableText at h
  cases hp : pick m with
  | some b =>
    rw [hp] at h
    injection h with h
    subst h
    rw [msgsLoop_cons]
    simp only [hp]
  | none =>
    rw [hp] at h
    simp only at h
    cases m with
    | obj fl =>
      simp only at h
      rw [msgsLoop_cons]
      simp only [hp]
      rw [h]
    | null => simp at h
    | bool b => simp at h
    | num n => simp at h
    | str t => simp at h
    | arr l => simp at h

/-- Over object messages the scan cannot crash. -/
theorem msgsLoop_ok_of_obj :
    ∀ l : List Json, (∀ m' ∈ l, ∃ fl, m' = .obj fl) → ∃ r, msgsLoop l = .ok r := by
  intro l
  induction l with
  | nil => exact fun _ => ⟨none, rfl⟩
  | cons m t ih =>
    intro h
    obtain ⟨fl, hfl⟩ := h m (List.mem_cons_self m t)
    subst hfl
    cases hp : pick (Json.obj fl) with
    | some a => exact ⟨some a, by rw [msgsLoop_cons]; simp only [hp]⟩
    | none =>
      cases hq : pick (jgetD (Json.obj fl) "data" (Json.obj [])) with
      | some a => exact ⟨some a, by rw [msgsLoop_cons]; simp only [hp, hq]⟩
      | none =>
        obtain ⟨r, hr⟩ := ih (fun m' hm' => h m' (List.mem_cons_of_mem _ hm'))
        exact ⟨r, by rw [msgsLoop_cons]; simp only [hp, hq]; exact hr⟩

/-- A scan that completes empty saw no usable text anywhere. -/
theorem msgsLoop_ok_none_all :
    ∀ l : List Json, msgsLoop l = .ok none → ∀ m' ∈ l, usableText m' = none := by
  intro l
  induction l with
  | nil => intro _ m' hm'; simp at hm'
  | cons m t ih =>
    intro h m' hm'
    rw [msgsLoop_cons] at h
    cases hp : pick m with
    | some a =>
      simp [hp] at h
    | none =>
      simp only [hp] at h
      cases m with
      | obj fl =>
        cases hq : pick (jgetD (Json.obj fl) "data" (Json.obj [])) with
        | some a =>
          simp [hq] at h
        | none =>
          simp only [hq] at h
          rcases List.mem_cons.mp hm' with rfl | hm't
          · unfold usableText
            rw [hp]
            exact hq
          · exact ih h m' hm't
      | null => simp at h
      | bool b => simp at h
      | num n => simp at h
      | str t0 => simp at h
      | arr l0 => simp at h

/-- C6 counterexample theorem. -/
theorem blocking_search_counterexample :
    blockingExtract blockingCexBody = .error emptyAnswerMsg ∧
    jget (jgetD blockingCexBody "result" (Json.obj [])) "messages" =
      some (Json.arr [Json.obj [("answer", Json.str "hi")]]) ∧
    pick (Json.obj [("answer", Json.str "hi")]) = some "hi" :=
  ⟨rfl, rfl, rfl⟩

/-- C6 (amended): the blocking extraction tries, in order, the top-level
fields, the `data` object, and the `result` object through the same
key list; the final nested message list is read from `data` when `data` is
truthy and only otherwise from `result`, and within it the last message
with usable text (in itself or its nested `data`) wins; provided the
scanned message entries are objects (a non-object entry reached by the
scan raises a type error instead), it fails with the empty-response error
exactly when none of the searched locations yields non-blank text. -/
theorem blocking_extract_search :
    (∀ j a, pick j = some a → blockingExtract j = .ok a) ∧
    (∀ j a, pick j = none → pick (jgetD j "data" (Json.obj [])) = some a →
      blockingExtract j = .ok a) ∧
    (∀ j a, pick j = none → pick (jgetD j "data" (Json.obj [])) = none →
      pick (jgetD j "result" (Json.obj [])) = some a → blockingExtract j = .ok a) ∧
    (∀ (l1 : List Json) (m : Json) (l2 : List Json) (a : String), usableText m = some a →
      (∀ m' ∈ l2, (∃ fl, m' = .obj fl) ∧ usableText m' = none) →
      msgsLoop (l1 ++ m :: l2).reverse = .ok (some a)) ∧
    (∀ j, (∀ m' ∈ msgsList j, ∃ fl, m' = .obj fl) →
      (blockingExtract j = .error emptyAnswerMsg ↔
        (pick j = none ∧ pick (jgetD j "data" (Json.obj [])) = none ∧
          pick (jgetD j "result" (Json.obj [])) = none ∧
          ∀ m' ∈ msgsList j, usableText m' = none))) := by
  refine ⟨?_, ?_, ?_, ?_, ?_⟩
  · intro j a h
    unfold blockingExtract
    rw [h]
  · intro j a h1 h2
    unfold blockingExtract
    rw [h1, h2]
  · intro j a h1 h2 h3
    unfold blockingExtract
    rw [h1, h2, h3]
  · intro l1 m l2 a hm hl2
    rw [List.reverse_append, List.reverse_cons, List.append_assoc]
    rw [msgsLoop_skip_all l2.reverse
      (fun m' hm' => hl2 m' (List.mem_reverse.mp hm'))]
    exact msgsLoop_head_usable m a hm _
  · intro j hobj
    unfold blockingExtract
    cases hp1 : pick j with
    | some a => simp [hp1]
    | none =>
      cases hp2 : pick (jgetD j "data" (Json.obj [])) with
      | some a => simp [hp2]
      | none =>
        cases hp3 : pick (jgetD j "result" (Json.obj [])) with
        | some a => simp [hp3]
        | none =>
          simp only [true_and]
          cases hmo : msgsOf j with
          | none =>
            simp only [msgsList, hmo, Option.getD_none]
            simp
          | some l =>
            have hlist : msgsList j = l := by simp [msgsList, hmo]
            simp only [hlist] at hobj ⊢
            by_cases hle : l.isEmpty
            · rw [if_pos hle]
              rw [List.isEmpty_iff] at hle
              subst hle
              simp
            · rw [if_neg hle]
              obtain ⟨r, hr⟩ := msgsLoop_ok_of_obj l.reverse
                (fun m' hm' => hobj m' (List.mem_reverse.mp hm'))
              rw [hr]
              cases r with
              | none =>
                simp only []
                constructor
                · intro _
                  intro m' hm'
                  exact msgsLoop_ok_none_all l.reverse hr m' (List.mem_reverse.mpr hm')
                · intro _
                  trivial
              | some a =>
                simp only []
                constructor
                · intro hcon
                  cases hcon
                · intro hall
                  have : msgsLoop (l.reverse ++ []) = msgsLoop [] :=
                    msgsLoop_skip_all l.reverse
                      (fun m' hm' => ⟨hobj m' (List.mem_reverse.mp hm'),
                        hall m' (List.mem_reverse.mp hm')⟩) []
                  rw [List.append_nil] at this
                  rw [this] at hr
                  cases hr

/-- Witness for C6's amended theorem: a top-level answer is picked, and
the counterexample body satisfies the biconditional's empty side. -/
theorem blocking_extract_search_witness :
    blockingExtract (Json.obj [("answer", Json.str "yes")]) = .ok "yes" ∧
    (blockingExtract blockingCexBody = .error emptyAnswerMsg ↔
      (pick blockingCexBody = none ∧
        pick (jgetD blockingCexBody "data" (Json.obj [])) = none ∧
        pick (jgetD blockingCexBody "result" (Json.obj [])) = none ∧
        ∀ m' ∈ msgsList blockingCexBody, usableText m' = none)) :=
  ⟨blocking_extract_search.1 (Json.obj [("answer", Json.str "yes")]) "yes" rfl,
    blocking_extract_search.2.2.2.2 blockingCexBody (by
      intro m' hm'
      rw [show msgsList blockingCexBody = [] from rfl] at hm'
      cases hm')⟩

end PitchScan
